import Mathlib

/-!
# GEOS `IntersectionMatrix` (source/geom/IntersectionMatrix.cpp)

A shallow embedding of the DE-9IM relationship matrix of GEOS and of the
operations defined on it in `source/geom/IntersectionMatrix.cpp`.  A second,
short part models `SegmentString::addIntersection` of the noding package.

Conventions of the embedding

* C++ `int` cells and dimension arguments are `Int`.  The code only stores,
  copies and compares them, so no machine arithmetic is involved.
* `int matrix[3][3]` is a function `Fin 3 → Fin 3 → Int`.  Member functions
  that take `int` indices (`get`, `set`, `setAtLeast`, ...) check the index
  against the array bounds and report `Error.OutOfBounds` where the C++
  program would read or write outside the array.
* A member function that mutates `this` returns the new matrix.
* `std::string` is `String`, read through `String.toList`; one `Char` stands
  for one C++ `char`, so `String.length` is `std::string::length`.
* A C++ exception, or an access outside an array or string, is an `Error`;
  functions that can raise one return `Result`.
* The headers declaring `Dimension` and `Location` are not part of the
  available sources.  Their constants and conversions are modelled from the
  specification and are marked as such.  The numeric value of
  `Dimension::True` is stated nowhere; every function that reads it takes it
  as the parameter `dimTrue`.
-/

namespace geos.geom

/-- Ways in which a call can fail to return normally. -/
inductive Error where
  /-- The exception `util::IllegalArgumentException` with its message. -/
  | IllegalArgumentException (msg : String)
  /-- An index outside `int matrix[3][3]` or outside a string. -/
  | OutOfBounds
  /-- A character or value for which the dimension table has no entry. -/
  | UnknownDimension
  deriving DecidableEq, Repr

/-- Outcome of a call: a value, or the way the call failed. -/
abbrev Result (α : Type) := Except Error α

deriving instance DecidableEq for Except

/-! ## Dimension and Location -/

/-- Modelled from the spec: `Dimension::False` (the `Dimension` header is not
among the sources); the data model gives `False(-1)`. -/
def Dimension.False : Int := -1

/-- Modelled from the spec: `Dimension::P` (the `Dimension` header is not
among the sources); the data model gives `Point(0)`. -/
def Dimension.P : Int := 0

/-- Modelled from the spec: `Dimension::L` (the `Dimension` header is not
among the sources); the data model gives `Line(1)`. -/
def Dimension.L : Int := 1

/-- Modelled from the spec: `Dimension::A` (the `Dimension` header is not
among the sources); the data model gives `Area(2)`. -/
def Dimension.A : Int := 2

/-- Modelled from the spec: `Dimension::toDimensionValue` (its definition is
not among the sources).  The symbols `F`, `0`, `1`, `2` stand for `False`,
`Point`, `Line`, `Area`; the specification assigns a stored dimension value
to no other character. -/
def Dimension.toDimensionValue (dimensionSymbol : Char) : Result Int :=
  if dimensionSymbol = 'F' then .ok Dimension.False
  else if dimensionSymbol = '0' then .ok Dimension.P
  else if dimensionSymbol = '1' then .ok Dimension.L
  else if dimensionSymbol = '2' then .ok Dimension.A
  else .error .UnknownDimension

/-- Modelled from the spec: `Dimension::toDimensionSymbol` (its definition is
not among the sources).  Cells are rendered back to the symbol characters:
`False`, `Point`, `Line`, `Area` become `F`, `0`, `1`, `2`; the specification
names a symbol for no other stored value. -/
def Dimension.toDimensionSymbol (dimensionValue : Int) : Result Char :=
  if dimensionValue = Dimension.False then .ok 'F'
  else if dimensionValue = Dimension.P then .ok '0'
  else if dimensionValue = Dimension.L then .ok '1'
  else if dimensionValue = Dimension.A then .ok '2'
  else .error .UnknownDimension

/-- Modelled from the spec: `Location::INTERIOR` (the `Location` header is not
among the sources).  The specification lists the locations in the order
Interior, Boundary, Exterior and uses them as row and column index of the
3×3 matrix. -/
def Location.INTERIOR : Fin 3 := 0

/-- Modelled from the spec: `Location::BOUNDARY` (the `Location` header is not
among the sources); second in the order Interior, Boundary, Exterior. -/
def Location.BOUNDARY : Fin 3 := 1

/-- Modelled from the spec: `Location::EXTERIOR` (the `Location` header is not
among the sources); third in the order Interior, Boundary, Exterior. -/
def Location.EXTERIOR : Fin 3 := 2

/-! ## The matrix -/

/-- The class `IntersectionMatrix`: its only data member is `int matrix[3][3]`. -/
structure IntersectionMatrix where
  /-- The cell array, `matrix[row][column]`. -/
  matrix : Fin 3 → Fin 3 → Int

/-- Equality of matrices is decided cell by cell. -/
instance : DecidableEq IntersectionMatrix := fun a b =>
  decidable_of_iff (∀ i j, a.matrix i j = b.matrix i j)
    ⟨fun h => by
      cases a
      cases b
      congr
      funext i j
      exact h i j,
     fun h _ _ => by rw [h]⟩

/-- The values `0, 1, 2` taken by a loop counter `for (int i = 0; i < 3; i++)`. -/
def loop3 : List (Fin 3) := [0, 1, 2]

/-- An `int` used as an index into an array of three elements. -/
def index (i : Int) : Result (Fin 3) :=
  if h : 0 ≤ i ∧ i < 3 then .ok ⟨i.toNat, by omega⟩ else .error .OutOfBounds

/-- The subscript `s[i]` of a `std::string`. -/
def charAt (s : String) (i : Nat) : Result Char :=
  match s.toList[i]? with
  | some c => .ok c
  | none => .error .OutOfBounds

namespace IntersectionMatrix

/-- The assignment `matrix[row][column] = value` with indices inside the array. -/
def store (m : IntersectionMatrix) (row column : Fin 3) (value : Int) :
    IntersectionMatrix :=
  ⟨fun i j => if i = row ∧ j = column then value else m.matrix i j⟩

/-- Embeds `IntersectionMatrix::setAll(int dimensionValue)`: both loops run over all
nine cells and assign the same value. -/
def setAll (m : IntersectionMatrix) (dimensionValue : Int) : IntersectionMatrix :=
  loop3.foldl (fun m ai => loop3.foldl (fun m bi => m.store ai bi dimensionValue) m) m

/-- The matrix storage before a constructor has assigned anything.  Both
constructors that start from it call `setAll` first, which overwrites every
cell, so the initial content is immaterial. -/
def uninitialised : IntersectionMatrix := ⟨fun _ _ => 0⟩

/-- Embeds `IntersectionMatrix::IntersectionMatrix()`. -/
def mk_default : IntersectionMatrix :=
  uninitialised.setAll Dimension.False

/-- Embeds `IntersectionMatrix::get(int row, int column)`. -/
def get (m : IntersectionMatrix) (row column : Int) : Result Int := do
  let r ← index row
  let c ← index column
  pure (m.matrix r c)

/-- Embeds `IntersectionMatrix::set(int row, int column, int dimensionValue)`. -/
def set (m : IntersectionMatrix) (row column : Int) (dimensionValue : Int) :
    Result IntersectionMatrix := do
  let r ← index row
  let c ← index column
  pure (m.store r c dimensionValue)

/-- Embeds `IntersectionMatrix::set(const string& dimensionSymbols)`: for every
position `i` of the string, `matrix[i/3][i%3]` receives the dimension value of
`dimensionSymbols[i]`. -/
def set_string (m : IntersectionMatrix) (dimensionSymbols : String) :
    Result IntersectionMatrix :=
  dimensionSymbols.toList.enum.foldlM
    (fun m (ic : Nat × Char) => do
      let value ← Dimension.toDimensionValue ic.2
      let row ← index ((ic.1 / 3 : Nat) : Int)
      let col ← index ((ic.1 % 3 : Nat) : Int)
      pure (m.store row col value))
    m

/-- Embeds `IntersectionMatrix::setAtLeast(int row, int column, int minimumDimensionValue)`. -/
def setAtLeast (m : IntersectionMatrix) (row column : Int)
    (minimumDimensionValue : Int) : Result IntersectionMatrix := do
  let r ← index row
  let c ← index column
  if m.matrix r c < minimumDimensionValue then
    pure (m.store r c minimumDimensionValue)
  else
    pure m

/-- Embeds `IntersectionMatrix::setAtLeastIfValid(int row, int column, int minimumDimensionValue)`. -/
def setAtLeastIfValid (m : IntersectionMatrix) (row column : Int)
    (minimumDimensionValue : Int) : Result IntersectionMatrix :=
  if row ≥ 0 ∧ column ≥ 0 then
    m.setAtLeast row column minimumDimensionValue
  else
    pure m

/-- Embeds `IntersectionMatrix::setAtLeast(string minimumDimensionSymbols)`. -/
def setAtLeast_string (m : IntersectionMatrix) (minimumDimensionSymbols : String) :
    Result IntersectionMatrix :=
  minimumDimensionSymbols.toList.enum.foldlM
    (fun m (ic : Nat × Char) => do
      let value ← Dimension.toDimensionValue ic.2
      m.setAtLeast ((ic.1 / 3 : Nat) : Int) ((ic.1 % 3 : Nat) : Int) value)
    m

/-- Embeds `IntersectionMatrix::IntersectionMatrix(const string& elements)`. -/
def mk_string (elements : String) : Result IntersectionMatrix :=
  (uninitialised.setAll Dimension.False).set_string elements

/-- Embeds `IntersectionMatrix::IntersectionMatrix(const IntersectionMatrix &im)`:
the nine cells are copied one by one. -/
def mk_copy (im : IntersectionMatrix) : IntersectionMatrix :=
  let m := uninitialised
  let m := m.store Location.INTERIOR Location.INTERIOR (im.matrix Location.INTERIOR Location.INTERIOR)
  let m := m.store Location.INTERIOR Location.BOUNDARY (im.matrix Location.INTERIOR Location.BOUNDARY)
  let m := m.store Location.INTERIOR Location.EXTERIOR (im.matrix Location.INTERIOR Location.EXTERIOR)
  let m := m.store Location.BOUNDARY Location.INTERIOR (im.matrix Location.BOUNDARY Location.INTERIOR)
  let m := m.store Location.BOUNDARY Location.BOUNDARY (im.matrix Location.BOUNDARY Location.BOUNDARY)
  let m := m.store Location.BOUNDARY Location.EXTERIOR (im.matrix Location.BOUNDARY Location.EXTERIOR)
  let m := m.store Location.EXTERIOR Location.INTERIOR (im.matrix Location.EXTERIOR Location.INTERIOR)
  let m := m.store Location.EXTERIOR Location.BOUNDARY (im.matrix Location.EXTERIOR Location.BOUNDARY)
  let m := m.store Location.EXTERIOR Location.EXTERIOR (im.matrix Location.EXTERIOR Location.EXTERIOR)
  m

/-- Embeds `IntersectionMatrix::add(IntersectionMatrix *im)` when `im` points to an
object other than `this`: for every `i`, `j` the call
`setAtLeast(i, j, im->get(i, j))`. -/
def add (m im : IntersectionMatrix) : Result IntersectionMatrix :=
  loop3.foldlM
    (fun m i => loop3.foldlM
      (fun m j => do
        let v ← im.get i j
        m.setAtLeast i j v)
      m)
    m

/-- Embeds `IntersectionMatrix::add(IntersectionMatrix *im)` for two distinct
objects with both of them in the state: the pair is `(*this, *im)`.  The body
reaches `*im` only through `im->get(i, j)`, which returns a cell and assigns
nothing. -/
def add_state (m im : IntersectionMatrix) :
    Result (IntersectionMatrix × IntersectionMatrix) :=
  loop3.foldlM
    (fun s i => loop3.foldlM
      (fun s j => do
        let v ← s.2.get i j
        let m ← s.1.setAtLeast i j v
        pure (m, s.2))
      s)
    (m, im)

/-- Embeds `IntersectionMatrix::add(IntersectionMatrix *im)` when `im == this`:
`im->get(i, j)` then reads the matrix as the loop has left it so far. -/
def add_self (m : IntersectionMatrix) : Result IntersectionMatrix :=
  loop3.foldlM
    (fun m i => loop3.foldlM
      (fun m j => do
        let v ← m.get i j
        m.setAtLeast i j v)
      m)
    m

/-- Embeds `IntersectionMatrix::matches(int actualDimensionValue, char requiredDimensionSymbol)`
(a static member).  `dimTrue` is the value of `Dimension::True`. -/
def matches_int_char (dimTrue : Int) (actualDimensionValue : Int)
    (requiredDimensionSymbol : Char) : Bool :=
  if requiredDimensionSymbol = '*' then true
  else if requiredDimensionSymbol = 'T' ∧
      (actualDimensionValue ≥ 0 ∨ actualDimensionValue = dimTrue) then true
  else if requiredDimensionSymbol = 'F' ∧ actualDimensionValue = Dimension.False then true
  else if requiredDimensionSymbol = '0' ∧ actualDimensionValue = Dimension.P then true
  else if requiredDimensionSymbol = '1' ∧ actualDimensionValue = Dimension.L then true
  else if requiredDimensionSymbol = '2' ∧ actualDimensionValue = Dimension.A then true
  else false

/-- Embeds `IntersectionMatrix::matches(const string& requiredDimensionSymbols)`.
The nested loops return `false` at the first cell that does not match and
`true` when all nine cells have matched, which is what `List.allM` does. -/
def matches_string (dimTrue : Int) (m : IntersectionMatrix)
    (requiredDimensionSymbols : String) : Result Bool :=
  if requiredDimensionSymbols.length ≠ 9 then
    .error (.IllegalArgumentException
      ("IllegalArgumentException: Should be length 9, is "
        ++ "[" ++ requiredDimensionSymbols ++ "] instead" ++ "\n"))
  else
    loop3.allM (fun ai => loop3.allM (fun bi => do
      let c ← charAt requiredDimensionSymbols (3 * ai.val + bi.val)
      pure (matches_int_char dimTrue (m.matrix ai bi) c)))

/-- Embeds `IntersectionMatrix::matches(const string& actualDimensionSymbols,
const string& requiredDimensionSymbols)` (a static member). -/
def matches_string_string (dimTrue : Int) (actualDimensionSymbols : String)
    (requiredDimensionSymbols : String) : Result Bool := do
  let m ← mk_string actualDimensionSymbols
  let result ← m.matches_string dimTrue requiredDimensionSymbols
  pure result

/-- Embeds `IntersectionMatrix::isDisjoint()`. -/
def isDisjoint (m : IntersectionMatrix) : Bool :=
  m.matrix Location.INTERIOR Location.INTERIOR == Dimension.False
  && m.matrix Location.INTERIOR Location.BOUNDARY == Dimension.False
  && m.matrix Location.BOUNDARY Location.INTERIOR == Dimension.False
  && m.matrix Location.BOUNDARY Location.BOUNDARY == Dimension.False

/-- Embeds `IntersectionMatrix::isIntersects()`. -/
def isIntersects (m : IntersectionMatrix) : Bool :=
  !m.isDisjoint

/-- Embeds `IntersectionMatrix::isTouches(int dimensionOfGeometryA,
int dimensionOfGeometryB)`.  When the first argument is the larger one the
function calls itself with the arguments swapped; in that call the first
argument is the smaller one, so the recursion stops there. -/
def isTouches (dimTrue : Int) (m : IntersectionMatrix)
    (dimensionOfGeometryA dimensionOfGeometryB : Int) : Bool :=
  if dimensionOfGeometryA > dimensionOfGeometryB then
    isTouches dimTrue m dimensionOfGeometryB dimensionOfGeometryA
  else if (dimensionOfGeometryA = Dimension.A ∧ dimensionOfGeometryB = Dimension.A)
      ∨ (dimensionOfGeometryA = Dimension.L ∧ dimensionOfGeometryB = Dimension.L)
      ∨ (dimensionOfGeometryA = Dimension.L ∧ dimensionOfGeometryB = Dimension.A)
      ∨ (dimensionOfGeometryA = Dimension.P ∧ dimensionOfGeometryB = Dimension.A)
      ∨ (dimensionOfGeometryA = Dimension.P ∧ dimensionOfGeometryB = Dimension.L) then
    m.matrix Location.INTERIOR Location.INTERIOR == Dimension.False
    && (matches_int_char dimTrue (m.matrix Location.INTERIOR Location.BOUNDARY) 'T'
      || matches_int_char dimTrue (m.matrix Location.BOUNDARY Location.INTERIOR) 'T'
      || matches_int_char dimTrue (m.matrix Location.BOUNDARY Location.BOUNDARY) 'T')
  else
    false
termination_by (if dimensionOfGeometryA > dimensionOfGeometryB then 1 else 0 : Nat)
decreasing_by
  rename_i h
  have h2 : ¬ dimensionOfGeometryB > dimensionOfGeometryA := by omega
  simp [h, h2]

/-- Embeds `IntersectionMatrix::isTouches` once more, with a counter: the
second component is the number of times the function has called itself
before returning. -/
def isTouches_counted (dimTrue : Int) (m : IntersectionMatrix)
    (dimensionOfGeometryA dimensionOfGeometryB : Int) : Bool × Nat :=
  if dimensionOfGeometryA > dimensionOfGeometryB then
    let r := isTouches_counted dimTrue m dimensionOfGeometryB dimensionOfGeometryA
    (r.1, r.2 + 1)
  else if (dimensionOfGeometryA = Dimension.A ∧ dimensionOfGeometryB = Dimension.A)
      ∨ (dimensionOfGeometryA = Dimension.L ∧ dimensionOfGeometryB = Dimension.L)
      ∨ (dimensionOfGeometryA = Dimension.L ∧ dimensionOfGeometryB = Dimension.A)
      ∨ (dimensionOfGeometryA = Dimension.P ∧ dimensionOfGeometryB = Dimension.A)
      ∨ (dimensionOfGeometryA = Dimension.P ∧ dimensionOfGeometryB = Dimension.L) then
    (m.matrix Location.INTERIOR Location.INTERIOR == Dimension.False
      && (matches_int_char dimTrue (m.matrix Location.INTERIOR Location.BOUNDARY) 'T'
        || matches_int_char dimTrue (m.matrix Location.BOUNDARY Location.INTERIOR) 'T'
        || matches_int_char dimTrue (m.matrix Location.BOUNDARY Location.BOUNDARY) 'T'), 0)
  else
    (false, 0)
termination_by (if dimensionOfGeometryA > dimensionOfGeometryB then 1 else 0 : Nat)
decreasing_by
  rename_i h
  have h2 : ¬ dimensionOfGeometryB > dimensionOfGeometryA := by omega
  simp [h, h2]

/-- Embeds `IntersectionMatrix::isCrosses(int dimensionOfGeometryA,
int dimensionOfGeometryB)`. -/
def isCrosses (dimTrue : Int) (m : IntersectionMatrix)
    (dimensionOfGeometryA dimensionOfGeometryB : Int) : Bool :=
  if (dimensionOfGeometryA = Dimension.P ∧ dimensionOfGeometryB = Dimension.L)
      ∨ (dimensionOfGeometryA = Dimension.P ∧ dimensionOfGeometryB = Dimension.A)
      ∨ (dimensionOfGeometryA = Dimension.L ∧ dimensionOfGeometryB = Dimension.A) then
    matches_int_char dimTrue (m.matrix Location.INTERIOR Location.INTERIOR) 'T'
    && matches_int_char dimTrue (m.matrix Location.INTERIOR Location.EXTERIOR) 'T'
  else if (dimensionOfGeometryA = Dimension.L ∧ dimensionOfGeometryB = Dimension.P)
      ∨ (dimensionOfGeometryA = Dimension.A ∧ dimensionOfGeometryB = Dimension.P)
      ∨ (dimensionOfGeometryA = Dimension.A ∧ dimensionOfGeometryB = Dimension.L) then
    matches_int_char dimTrue (m.matrix Location.INTERIOR Location.INTERIOR) 'T'
    && matches_int_char dimTrue (m.matrix Location.EXTERIOR Location.INTERIOR) 'T'
  else if dimensionOfGeometryA = Dimension.L ∧ dimensionOfGeometryB = Dimension.L then
    m.matrix Location.INTERIOR Location.INTERIOR == 0
  else
    false

/-- Embeds `IntersectionMatrix::isWithin()`. -/
def isWithin (dimTrue : Int) (m : IntersectionMatrix) : Bool :=
  matches_int_char dimTrue (m.matrix Location.INTERIOR Location.INTERIOR) 'T'
  && m.matrix Location.INTERIOR Location.EXTERIOR == Dimension.False
  && m.matrix Location.BOUNDARY Location.EXTERIOR == Dimension.False

/-- Embeds `IntersectionMatrix::isContains()`. -/
def isContains (dimTrue : Int) (m : IntersectionMatrix) : Bool :=
  matches_int_char dimTrue (m.matrix Location.INTERIOR Location.INTERIOR) 'T'
  && m.matrix Location.EXTERIOR Location.INTERIOR == Dimension.False
  && m.matrix Location.EXTERIOR Location.BOUNDARY == Dimension.False

/-- Embeds `IntersectionMatrix::isEquals(int dimensionOfGeometryA,
int dimensionOfGeometryB)`. -/
def isEquals (dimTrue : Int) (m : IntersectionMatrix)
    (dimensionOfGeometryA dimensionOfGeometryB : Int) : Bool :=
  if dimensionOfGeometryA ≠ dimensionOfGeometryB then
    false
  else
    matches_int_char dimTrue (m.matrix Location.INTERIOR Location.INTERIOR) 'T'
    && m.matrix Location.EXTERIOR Location.INTERIOR == Dimension.False
    && m.matrix Location.INTERIOR Location.EXTERIOR == Dimension.False
    && m.matrix Location.EXTERIOR Location.BOUNDARY == Dimension.False
    && m.matrix Location.BOUNDARY Location.EXTERIOR == Dimension.False

/-- Embeds `IntersectionMatrix::isOverlaps(int dimensionOfGeometryA,
int dimensionOfGeometryB)`. -/
def isOverlaps (dimTrue : Int) (m : IntersectionMatrix)
    (dimensionOfGeometryA dimensionOfGeometryB : Int) : Bool :=
  if (dimensionOfGeometryA = Dimension.P ∧ dimensionOfGeometryB = Dimension.P)
      ∨ (dimensionOfGeometryA = Dimension.A ∧ dimensionOfGeometryB = Dimension.A) then
    matches_int_char dimTrue (m.matrix Location.INTERIOR Location.INTERIOR) 'T'
    && matches_int_char dimTrue (m.matrix Location.INTERIOR Location.EXTERIOR) 'T'
    && matches_int_char dimTrue (m.matrix Location.EXTERIOR Location.INTERIOR) 'T'
  else if dimensionOfGeometryA = Dimension.L ∧ dimensionOfGeometryB = Dimension.L then
    m.matrix Location.INTERIOR Location.INTERIOR == 1
    && matches_int_char dimTrue (m.matrix Location.INTERIOR Location.EXTERIOR) 'T'
    && matches_int_char dimTrue (m.matrix Location.EXTERIOR Location.INTERIOR) 'T'
  else
    false

/-- Embeds `IntersectionMatrix::transpose()`: three swaps through `temp`; the
returned pointer is `this`, so the result is the mutated matrix. -/
def transpose (m : IntersectionMatrix) : IntersectionMatrix :=
  let temp := m.matrix 1 0
  let m := m.store 1 0 (m.matrix 0 1)
  let m := m.store 0 1 temp
  let temp := m.matrix 2 0
  let m := m.store 2 0 (m.matrix 0 2)
  let m := m.store 0 2 temp
  let temp := m.matrix 2 1
  let m := m.store 2 1 (m.matrix 1 2)
  let m := m.store 1 2 temp
  m

/-- Embeds `IntersectionMatrix::toString()`: the symbols of the nine cells, row by
row, appended to an empty string. -/
def toString (m : IntersectionMatrix) : Result String :=
  loop3.foldlM
    (fun result ai => loop3.foldlM
      (fun result bi => do
        let c ← Dimension.toDimensionSymbol (m.matrix ai bi)
        pure (result.push c))
      result)
    ""

/-! ## Sequences of calls and the stored-value invariant -/

/-- The stored dimension values of the data model: `False`, `Point`, `Line`
and `Area`. -/
def isDimensionValue (v : Int) : Prop :=
  v = Dimension.False ∨ v = Dimension.P ∨ v = Dimension.L ∨ v = Dimension.A

instance : DecidablePred isDimensionValue := fun v => by
  unfold isDimensionValue
  infer_instance

/-- The stored-value invariant of a matrix: each of the nine cells holds a
dimension value. -/
def storesDimensionValues (m : IntersectionMatrix) : Prop :=
  ∀ i j : Fin 3, isDimensionValue (m.matrix i j)

instance : DecidablePred storesDimensionValues := fun m => by
  unfold storesDimensionValues
  infer_instance

/-- One call of a mutating member function of `IntersectionMatrix`, with its
arguments. -/
inductive Call where
  /-- The call `set(row, column, dimensionValue)`. -/
  | set (row column dimensionValue : Int)
  /-- The call `setAtLeast(row, column, minimumDimensionValue)`. -/
  | setAtLeast (row column minimumDimensionValue : Int)
  /-- The call `setAtLeastIfValid(row, column, minimumDimensionValue)`. -/
  | setAtLeastIfValid (row column minimumDimensionValue : Int)
  /-- The call `setAll(dimensionValue)`. -/
  | setAll (dimensionValue : Int)
  /-- The call `set(dimensionSymbols)`. -/
  | set_string (dimensionSymbols : String)
  /-- The call `setAtLeast(minimumDimensionSymbols)`. -/
  | setAtLeast_string (minimumDimensionSymbols : String)
  /-- The call `add(&im)` with another matrix. -/
  | add (im : IntersectionMatrix)
  /-- The call `add(this)`. -/
  | add_self
  /-- The call `transpose()`. -/
  | transpose

/-- The effect of one call on the matrix it is made on. -/
def Call.run (c : Call) (m : IntersectionMatrix) : Result IntersectionMatrix :=
  match c with
  | .set row column dimensionValue => m.set row column dimensionValue
  | .setAtLeast row column minimumDimensionValue =>
      m.setAtLeast row column minimumDimensionValue
  | .setAtLeastIfValid row column minimumDimensionValue =>
      m.setAtLeastIfValid row column minimumDimensionValue
  | .setAll dimensionValue => .ok (m.setAll dimensionValue)
  | .set_string dimensionSymbols => m.set_string dimensionSymbols
  | .setAtLeast_string minimumDimensionSymbols =>
      m.setAtLeast_string minimumDimensionSymbols
  | .add im => m.add im
  | .add_self => m.add_self
  | .transpose => .ok m.transpose

/-- The effect of a sequence of calls, made one after the other. -/
def runCalls (calls : List Call) (m : IntersectionMatrix) : Result IntersectionMatrix :=
  calls.foldlM (fun m c => c.run m) m

/-- The arguments of a call are dimension data: value arguments are dimension
values, symbol strings are over `F`, `0`, `1`, `2`, and a matrix argument
satisfies the stored-value invariant. -/
def Call.dimensionArguments : Call → Prop
  | .set _ _ dimensionValue => isDimensionValue dimensionValue
  | .setAtLeast _ _ minimumDimensionValue => isDimensionValue minimumDimensionValue
  | .setAtLeastIfValid _ _ minimumDimensionValue => isDimensionValue minimumDimensionValue
  | .setAll dimensionValue => isDimensionValue dimensionValue
  | .set_string dimensionSymbols => ∀ c ∈ dimensionSymbols.toList, c ∈ ['F', '0', '1', '2']
  | .setAtLeast_string minimumDimensionSymbols =>
      ∀ c ∈ minimumDimensionSymbols.toList, c ∈ ['F', '0', '1', '2']
  | .add im => storesDimensionValues im
  | .add_self => True
  | .transpose => True

/-- The call stays inside `int matrix[3][3]`: indices are in `0..2` (for
`setAtLeastIfValid` an index may also be negative) and a symbol string has at
most nine characters. -/
def Call.inBounds : Call → Prop
  | .set row column _ => (0 ≤ row ∧ row < 3) ∧ (0 ≤ column ∧ column < 3)
  | .setAtLeast row column _ => (0 ≤ row ∧ row < 3) ∧ (0 ≤ column ∧ column < 3)
  | .setAtLeastIfValid row column _ => (row < 0 ∨ column < 0) ∨ (row < 3 ∧ column < 3)
  | .setAll _ => True
  | .set_string dimensionSymbols => dimensionSymbols.length ≤ 9
  | .setAtLeast_string minimumDimensionSymbols => minimumDimensionSymbols.length ≤ 9
  | .add _ => True
  | .add_self => True
  | .transpose => True

end IntersectionMatrix

end geos.geom

/-! ## Noding: `SegmentString` (source/headers/geos/noding/SegmentString.h)

Only the header of `SegmentString` is among the sources: the data members and
the declarations with their doc comments.  The bodies are modelled from the
specification.  Coordinates are compared for exact equality and for nothing
else, so their type is a parameter with decidable equality. -/

namespace geos.noding

/-- Modelled from the spec: `SegmentNode` (its class is not among the
sources), a discovered intersection point together with the index of the
segment it is recorded against.  The second part of the key in the
specification, the distance along the segment, is a floating-point number and
is left out. -/
structure SegmentNode (Coordinate : Type) where
  /-- The intersection point. -/
  coord : Coordinate
  /-- The index of the segment the point is recorded against. -/
  segmentIndex : Nat
  deriving DecidableEq

/-- Modelled from the spec: `SegmentNodeList::add` (its class is not among the
sources).  Duplicates are merged: a node that the list already holds is not
added again.  The order of the list follows the key with the distance along
the segment and is not modelled; the list is read as a set of nodes. -/
def SegmentNodeList.add {Coordinate : Type} [DecidableEq Coordinate]
    (eiList : List (SegmentNode Coordinate)) (intPt : Coordinate) (segmentIndex : Nat) :
    List (SegmentNode Coordinate) :=
  if (⟨intPt, segmentIndex⟩ : SegmentNode Coordinate) ∈ eiList then eiList
  else ⟨intPt, segmentIndex⟩ :: eiList

end geos.noding

namespace geos.geom

/-! ## Basic facts about the embedding -/

theorem IntersectionMatrix.ext_cells {a b : IntersectionMatrix}
    (h : ∀ i j, a.matrix i j = b.matrix i j) : a = b := by
  cases a; cases b
  congr
  funext i j
  exact h i j

theorem index_fin (i : Fin 3) : index ((i.val : Nat) : Int) = .ok i := by
  have h : (0 : Int) ≤ (i.val : Int) ∧ (i.val : Int) < 3 := by
    have := i.isLt
    omega
  unfold index
  rw [dif_pos h]
  congr

theorem charAt_of_lt (s : String) (k : Nat) (h : k < s.length) :
    charAt s k = .ok (s.toList.getD k ' ') := by
  have h2 : k < s.toList.length := h
  simp only [charAt, List.getD, List.get?_eq_getElem?, List.getElem?_eq_getElem h2,
    Option.getD_some]

theorem allM_ok {α : Type} (l : List α) (f : α → Result Bool) (g : α → Bool)
    (h : ∀ a ∈ l, f a = .ok (g a)) : l.allM f = .ok (l.all g) := by
  induction l with
  | nil => rfl
  | cons a as ih =>
    have ha : f a = .ok (g a) := h a (List.mem_cons_self a as)
    have ih2 := ih (fun b hb => h b (List.mem_cons_of_mem a hb))
    rw [List.allM, ha]
    cases hg : g a
    · simp [List.all_cons, hg, bind, Except.bind, pure, Except.pure]
    · simp [List.all_cons, hg, bind, Except.bind, ih2]

theorem mem_loop3 (i : Fin 3) : i ∈ loop3 := by
  fin_cases i <;> simp [loop3]

namespace IntersectionMatrix

theorem get_fin (m : IntersectionMatrix) (i j : Fin 3) :
    m.get ((i.val : Nat) : Int) ((j.val : Nat) : Int) = .ok (m.matrix i j) := by
  simp [get, index_fin, bind, Except.bind, pure, Except.pure]

theorem setAtLeast_fin (m : IntersectionMatrix) (i j : Fin 3) (v : Int) :
    m.setAtLeast ((i.val : Nat) : Int) ((j.val : Nat) : Int) v
      = .ok (m.store i j (max (m.matrix i j) v)) := by
  simp only [setAtLeast, index_fin, bind, Except.bind, pure, Except.pure]
  split_ifs with h
  · rw [max_eq_right (le_of_lt h)]
  · rw [max_eq_left (not_lt.mp h)]
    congr
    apply ext_cells
    intro a b
    simp only [store]
    split_ifs with hab
    · rw [hab.1, hab.2]
    · rfl

/-- The pattern match on a pattern of length nine, as a test of all nine cells. -/
theorem matches_string_of_length (dimTrue : Int) (m : IntersectionMatrix) (p : String)
    (h : p.length = 9) :
    m.matches_string dimTrue p = .ok (loop3.all fun ai => loop3.all fun bi =>
      matches_int_char dimTrue (m.matrix ai bi) (p.toList.getD (3 * ai.val + bi.val) ' ')) := by
  unfold matches_string
  rw [if_neg (by simp [h])]
  apply allM_ok
  intro ai _
  apply allM_ok
  intro bi _
  have hk : 3 * ai.val + bi.val < p.length := by
    have := ai.isLt
    have := bi.isLt
    omega
  rw [charAt_of_lt p _ hk]
  rfl

/-- The merge of two distinct matrices is the cell-wise maximum. -/
theorem add_eq (m im : IntersectionMatrix) :
    m.add im = .ok ⟨fun i j => max (m.matrix i j) (im.matrix i j)⟩ := by
  have hg := get_fin im
  have hs := fun (x : IntersectionMatrix) => setAtLeast_fin x
  simp only [add, loop3, List.foldlM, bind, Except.bind, hg, hs, pure, Except.pure]
  congr
  apply ext_cells
  intro i j
  fin_cases i <;> fin_cases j <;> simp [store]

/-- The merge of a matrix into itself changes nothing. -/
theorem add_self_eq (m : IntersectionMatrix) : m.add_self = .ok m := by
  have hg := fun (x : IntersectionMatrix) => get_fin x
  have hs := fun (x : IntersectionMatrix) => setAtLeast_fin x
  simp only [add_self, loop3, List.foldlM, bind, Except.bind, hg, hs, pure, Except.pure]
  congr
  apply ext_cells
  intro i j
  fin_cases i <;> fin_cases j <;> simp [store]

theorem mk_default_cells (i j : Fin 3) : mk_default.matrix i j = Dimension.False := by
  fin_cases i <;> fin_cases j <;> rfl

theorem mk_copy_eq (im : IntersectionMatrix) : mk_copy im = im := by
  apply ext_cells
  intro i j
  fin_cases i <;> fin_cases j <;> rfl

end IntersectionMatrix

/-! ## Pattern matching -/

namespace IntersectionMatrix

/-- C1: for every matrix and every pattern, `matches(pattern)` fails with an
`IllegalArgumentException` exactly when the pattern's length is not 9 (the
message then quotes the pattern), it returns a boolean exactly when the
length is 9, and `matches("FF*FF")` fails. -/
theorem matches_string_fails_iff_length_ne_nine (dimTrue : Int) (m : IntersectionMatrix)
    (p : String) :
    ((∃ msg, m.matches_string dimTrue p = .error (.IllegalArgumentException msg))
        ↔ p.length ≠ 9)
    ∧ ((∃ b : Bool, m.matches_string dimTrue p = .ok b) ↔ p.length = 9)
    ∧ (∃ msg, m.matches_string dimTrue "FF*FF" = .error (.IllegalArgumentException msg))
    ∧ (p.length ≠ 9 ↔ m.matches_string dimTrue p = .error (.IllegalArgumentException
        ("IllegalArgumentException: Should be length 9, is "
          ++ "[" ++ p ++ "] instead" ++ "\n"))) := by
  have hbad : p.length ≠ 9 → m.matches_string dimTrue p = .error (.IllegalArgumentException
      ("IllegalArgumentException: Should be length 9, is "
          ++ "[" ++ p ++ "] instead" ++ "\n")) := by
    intro h
    unfold matches_string
    rw [if_pos h]
  refine ⟨⟨?_, fun h => ⟨_, hbad h⟩⟩, ⟨?_, fun h => ⟨_, matches_string_of_length dimTrue m p h⟩⟩,
    ⟨_, rfl⟩, ⟨hbad, ?_⟩⟩
  · rintro ⟨msg, hmsg⟩ h9
    rw [matches_string_of_length dimTrue m p h9] at hmsg
    cases hmsg
  · rintro ⟨b, hb⟩
    by_contra h9
    rw [hbad h9] at hb
    cases hb
  · intro herr h9
    rw [matches_string_of_length dimTrue m p h9] at herr
    cases herr

/-- C2: for a pattern of length 9, `matches(pattern)` returns true exactly
when every cell `(ai, bi)` matches the pattern character at position
`3*ai + bi`. -/
theorem matches_string_true_iff (dimTrue : Int) (m : IntersectionMatrix) (p : String)
    (h : p.length = 9) :
    m.matches_string dimTrue p = .ok true ↔
      ∀ ai bi : Fin 3, ∃ v c, m.get ((ai.val : Nat) : Int) ((bi.val : Nat) : Int) = .ok v
        ∧ charAt p (3 * ai.val + bi.val) = .ok c
        ∧ matches_int_char dimTrue v c = true := by
  have hk : ∀ ai bi : Fin 3, 3 * ai.val + bi.val < p.length := by
    intro ai bi
    have := ai.isLt
    have := bi.isLt
    omega
  rw [matches_string_of_length dimTrue m p h]
  constructor
  · intro hall ai bi
    have hall2 : (loop3.all fun ai => loop3.all fun bi =>
        matches_int_char dimTrue (m.matrix ai bi)
          (p.toList.getD (3 * ai.val + bi.val) ' ')) = true := by
      injection hall
    rw [List.all_eq_true] at hall2
    have hrow := hall2 ai (mem_loop3 ai)
    rw [List.all_eq_true] at hrow
    exact ⟨_, _, get_fin m ai bi, charAt_of_lt p _ (hk ai bi), hrow bi (mem_loop3 bi)⟩
  · intro hcells
    congr
    rw [List.all_eq_true]
    intro ai _
    rw [List.all_eq_true]
    intro bi _
    obtain ⟨v, c, hv, hc, hm⟩ := hcells ai bi
    rw [get_fin] at hv
    rw [charAt_of_lt p _ (hk ai bi)] at hc
    injection hv with hv
    injection hc with hc
    rw [hv, hc]
    exact hm

/-- Witness for C2: the all-`False` matrix against the pattern `FF*FF****`. -/
theorem matches_string_true_iff_witness :
    ("FF*FF****").length = 9 ∧
    (mk_default.matches_string (-2) "FF*FF****" = .ok true ↔
      ∀ ai bi : Fin 3, ∃ v c, mk_default.get ((ai.val : Nat) : Int) ((bi.val : Nat) : Int) = .ok v
        ∧ charAt "FF*FF****" (3 * ai.val + bi.val) = .ok c
        ∧ matches_int_char (-2) v c = true) :=
  ⟨by decide, matches_string_true_iff (-2) mk_default "FF*FF****" (by decide)⟩

/-- C3: the single-symbol match is true exactly when the symbol is `*`, or
`T` with a value that is `>= 0` or the `True` sentinel, or `F` with `False`,
or `0`, `1`, `2` with `Point`, `Line`, `Area`; in every other case it is
false. -/
theorem matches_int_char_iff (dimTrue : Int) (v : Int) (c : Char) :
    (matches_int_char dimTrue v c = true ↔
      (c = '*'
        ∨ (c = 'T' ∧ (v ≥ 0 ∨ v = dimTrue))
        ∨ (c = 'F' ∧ v = Dimension.False)
        ∨ (c = '0' ∧ v = Dimension.P)
        ∨ (c = '1' ∧ v = Dimension.L)
        ∨ (c = '2' ∧ v = Dimension.A)))
    ∧ (matches_int_char dimTrue v c = false ↔
      ¬ (c = '*'
        ∨ (c = 'T' ∧ (v ≥ 0 ∨ v = dimTrue))
        ∨ (c = 'F' ∧ v = Dimension.False)
        ∨ (c = '0' ∧ v = Dimension.P)
        ∨ (c = '1' ∧ v = Dimension.L)
        ∨ (c = '2' ∧ v = Dimension.A))) := by
  have key : matches_int_char dimTrue v c = true ↔
      (c = '*'
        ∨ (c = 'T' ∧ (v ≥ 0 ∨ v = dimTrue))
        ∨ (c = 'F' ∧ v = Dimension.False)
        ∨ (c = '0' ∧ v = Dimension.P)
        ∨ (c = '1' ∧ v = Dimension.L)
        ∨ (c = '2' ∧ v = Dimension.A)) := by
    unfold matches_int_char
    split_ifs with h1 h2 h3 h4 h5 h6
    · simp [h1]
    · simp [h2]
    · simp [h3]
    · simp [h4]
    · simp [h5]
    · simp [h6]
    · simp only [Bool.false_eq_true, false_iff]
      rintro (h | h | h | h | h | h)
      exacts [h1 h, h2 h, h3 h, h4 h, h5 h, h6 h]
  refine ⟨key, ?_⟩
  rw [← key]
  cases matches_int_char dimTrue v c <;> simp

end IntersectionMatrix

/-! ## Disjointness -/

namespace IntersectionMatrix

/-- Counterexample to C4 as stated: the matrix built from `FF2FF1212` does not
give `isDisjoint() == false` together with `isIntersects() == true`. -/
theorem mk_string_FF2FF1212_refutes_intersects :
    ¬ ((mk_string "FF2FF1212").map isDisjoint = .ok false
        ∧ (mk_string "FF2FF1212").map isIntersects = .ok true) := by
  decide

/-- C4 (amended): the matrix built from the symbol string `FF2FF1212` is
constructed without error and yields `isDisjoint() == true` and
`isIntersects() == false`. -/
theorem mk_string_FF2FF1212_isDisjoint :
    (mk_string "FF2FF1212").map isDisjoint = .ok true
      ∧ (mk_string "FF2FF1212").map isIntersects = .ok false := by
  decide

/-- C5: `isDisjoint()` is true exactly when the four cells
Interior×Interior, Interior×Boundary, Boundary×Interior and
Boundary×Boundary all equal `False`, and `isIntersects()` is its negation. -/
theorem isDisjoint_iff (m : IntersectionMatrix) :
    (m.isDisjoint = true ↔
      m.matrix Location.INTERIOR Location.INTERIOR = Dimension.False
      ∧ m.matrix Location.INTERIOR Location.BOUNDARY = Dimension.False
      ∧ m.matrix Location.BOUNDARY Location.INTERIOR = Dimension.False
      ∧ m.matrix Location.BOUNDARY Location.BOUNDARY = Dimension.False)
    ∧ m.isIntersects = !m.isDisjoint := by
  refine ⟨?_, rfl⟩
  simp only [isDisjoint, Bool.and_eq_true, beq_iff_eq, and_assoc]

end IntersectionMatrix

/-! ## Round trip through the symbol string -/

/-- On the four stored symbols the two conversions of `Dimension` undo each other. -/
theorem Dimension.symbol_of_value (c : Char) (h : c ∈ ['F', '0', '1', '2']) :
    ∃ v, Dimension.toDimensionValue c = .ok v ∧ Dimension.toDimensionSymbol v = .ok c := by
  simp only [List.mem_cons, List.mem_singleton, List.not_mem_nil, or_false] at h
  rcases h with h | h | h | h <;> subst h <;> exact ⟨_, rfl, rfl⟩

namespace IntersectionMatrix

/-- C6: for every string `s` of length 9 over the symbols `F`, `0`, `1`, `2`,
the matrix constructed from `s` exists and its `toString()` is `s`. -/
theorem toString_mk_string (s : String) (hlen : s.length = 9)
    (hsym : ∀ c ∈ s.toList, c ∈ ['F', '0', '1', '2']) :
    ∃ m, mk_string s = .ok m ∧ m.toString = .ok s := by
  obtain ⟨l⟩ := s
  have hl : l.length = 9 := hlen
  match l, hl with
  | [c0, c1, c2, c3, c4, c5, c6, c7, c8], _ =>
    simp only [String.toList, List.mem_cons, List.mem_singleton, List.not_mem_nil,
      or_false, forall_eq_or_imp, forall_eq] at hsym
    obtain ⟨h0, h1, h2, h3, h4, h5, h6, h7, h8⟩ := hsym
    obtain ⟨v0, e0, d0⟩ := Dimension.symbol_of_value c0 (by simpa using h0)
    obtain ⟨v1, e1, d1⟩ := Dimension.symbol_of_value c1 (by simpa using h1)
    obtain ⟨v2, e2, d2⟩ := Dimension.symbol_of_value c2 (by simpa using h2)
    obtain ⟨v3, e3, d3⟩ := Dimension.symbol_of_value c3 (by simpa using h3)
    obtain ⟨v4, e4, d4⟩ := Dimension.symbol_of_value c4 (by simpa using h4)
    obtain ⟨v5, e5, d5⟩ := Dimension.symbol_of_value c5 (by simpa using h5)
    obtain ⟨v6, e6, d6⟩ := Dimension.symbol_of_value c6 (by simpa using h6)
    obtain ⟨v7, e7, d7⟩ := Dimension.symbol_of_value c7 (by simpa using h7)
    obtain ⟨v8, e8, d8⟩ := Dimension.symbol_of_value c8 (by simpa using h8)
    have i0 : index ((0 : Nat) : Int) = .ok 0 := index_fin 0
    have i1 : index ((1 : Nat) : Int) = .ok 1 := index_fin 1
    have i2 : index ((2 : Nat) : Int) = .ok 2 := index_fin 2
    have hm : mk_string ⟨[c0, c1, c2, c3, c4, c5, c6, c7, c8]⟩ = .ok
        (((((((((mk_default.store 0 0 v0).store 0 1 v1).store 0 2 v2).store 1 0 v3).store 1 1 v4
          ).store 1 2 v5).store 2 0 v6).store 2 1 v7).store 2 2 v8) := by
      simp only [mk_string, set_string, String.toList, List.enum, List.enumFrom, List.foldlM,
        bind, Except.bind, pure, Except.pure, e0, e1, e2, e3, e4, e5, e6, e7, e8,
        Nat.reduceDiv, Nat.reduceMod, Nat.reduceAdd, i0, i1, i2, mk_default]
    refine ⟨_, hm, ?_⟩
    · simp [toString, loop3, List.foldlM, bind, Except.bind, pure, Except.pure, store,
        d0, d1, d2, d3, d4, d5, d6, d7, d8, String.push]

/-- Witness for C6: the string `FF2FF1212`. -/
theorem toString_mk_string_witness :
    ("FF2FF1212").length = 9 ∧ (∀ c ∈ ("FF2FF1212").toList, c ∈ ['F', '0', '1', '2'])
      ∧ ∃ m, mk_string "FF2FF1212" = .ok m ∧ m.toString = .ok "FF2FF1212" :=
  ⟨by decide, by decide, toString_mk_string "FF2FF1212" (by decide) (by decide)⟩

/-! ## Transposition -/

/-- C7: applying `transpose()` twice restores each of the nine cells, so the
matrix is the original one. -/
theorem transpose_transpose (m : IntersectionMatrix) :
    (∀ i j : Fin 3, m.transpose.transpose.matrix i j = m.matrix i j)
      ∧ m.transpose.transpose = m := by
  have h : ∀ i j : Fin 3, m.transpose.transpose.matrix i j = m.matrix i j := by
    intro i j
    fin_cases i <;> fin_cases j <;> rfl
  exact ⟨h, ext_cells h⟩

/-! ## Merging -/

/-- Counterexample to C8 as stated: a matrix whose Interior×Interior cell is
`-2`, below `False`, is not what `add` leaves in a freshly constructed
matrix; the cell stays `False` and the result is the all-`False` matrix. -/
theorem add_mk_default_below_False :
    mk_default.set 0 0 (-2) = .ok (mk_default.store 0 0 (-2))
      ∧ mk_default.add (mk_default.store 0 0 (-2)) ≠ .ok (mk_default.store 0 0 (-2))
      ∧ mk_default.add (mk_default.store 0 0 (-2)) = .ok mk_default := by
  decide

/-- C8 (amended): for every matrix `m` none of whose cells is below `False`,
`add(m)` on a freshly constructed all-`False` matrix yields `m`. -/
theorem add_mk_default (m : IntersectionMatrix)
    (h : ∀ i j : Fin 3, Dimension.False ≤ m.matrix i j) :
    mk_default.add m = .ok m := by
  rw [add_eq]
  congr
  funext i j
  rw [mk_default_cells]
  exact max_eq_right (h i j)

/-- Witness for C8 (amended): the matrix with `Area` on the diagonal and `False`
elsewhere. -/
theorem add_mk_default_witness :
    (∀ i j : Fin 3, Dimension.False ≤
        (IntersectionMatrix.mk fun i j => if i = j then 2 else -1).matrix i j)
      ∧ mk_default.add (IntersectionMatrix.mk fun i j => if i = j then 2 else -1)
          = .ok (IntersectionMatrix.mk fun i j => if i = j then 2 else -1) :=
  ⟨by decide, add_mk_default _ (by decide)⟩

/-- C9: adding `m2` into a copy of `m1` and adding `m1` into a copy of `m2`
both succeed and give the same matrix. -/
theorem add_comm_copy (m1 m2 : IntersectionMatrix) :
    ∃ r, (mk_copy m1).add m2 = .ok r ∧ (mk_copy m2).add m1 = .ok r
      ∧ ∀ i j : Fin 3, r.matrix i j = max (m1.matrix i j) (m2.matrix i j) := by
  refine ⟨⟨fun i j => max (m1.matrix i j) (m2.matrix i j)⟩, ?_, ?_, fun _ _ => rfl⟩
  · rw [mk_copy_eq, add_eq]
  · rw [mk_copy_eq, add_eq]
    congr
    funext i j
    exact max_comm _ _

/-- C10: adding `b` and then `c` into `a` gives the same matrix as adding
into `a` the result of adding `c` into `b`; adding a matrix into itself, or
into an equal copy of itself, leaves it unchanged. -/
theorem add_assoc_and_idempotent (a b c : IntersectionMatrix) :
    (∃ ab bc abc, a.add b = .ok ab ∧ ab.add c = .ok abc
        ∧ b.add c = .ok bc ∧ a.add bc = .ok abc)
      ∧ a.add_self = .ok a
      ∧ a.add (mk_copy a) = .ok a
      ∧ (mk_copy a).add a = .ok a := by
  refine ⟨⟨_, _, _, add_eq a b, add_eq _ c, add_eq b c, ?_⟩, add_self_eq a, ?_, ?_⟩
  · rw [add_eq]
    congr
    funext i j
    exact (max_assoc _ _ _).symm
  · rw [mk_copy_eq, add_eq]
    congr
    funext i j
    exact max_self _
  · rw [mk_copy_eq, add_eq]
    congr
    funext i j
    exact max_self _

end IntersectionMatrix

/-! ## Cell-wise description of the mutators -/

namespace IntersectionMatrix

/-- The merge with both objects in the state leaves the argument as it was. -/
theorem add_state_eq (m im : IntersectionMatrix) :
    m.add_state im = .ok (⟨fun i j => max (m.matrix i j) (im.matrix i j)⟩, im) := by
  have hg := get_fin im
  have hs := fun (x : IntersectionMatrix) => setAtLeast_fin x
  simp only [add_state, loop3, List.foldlM, bind, Except.bind, hg, hs, pure, Except.pure]
  congr
  apply ext_cells
  intro i j
  fin_cases i <;> fin_cases j <;> simp [store]

/-- Each valid `int` index is the value of one element of `Fin 3`. -/
theorem index_of_valid (i : Int) (h : 0 ≤ i ∧ i < 3) :
    ∃ r : Fin 3, ((r.val : Nat) : Int) = i ∧ index i = .ok r := by
  refine ⟨⟨i.toNat, by omega⟩, ?_, ?_⟩
  · simp only
    omega
  · unfold index
    rw [dif_pos h]

/-- C11: after `a.add(b)` every cell of `a` is the maximum of its previous
value and the same cell of `b`, and `b` is unchanged; when `b` is `a` itself
the matrix is left as it was. -/
theorem add_cells (a b : IntersectionMatrix) :
    (∃ r, a.add b = .ok r ∧ a.add_state b = .ok (r, b)
        ∧ ∀ i j : Fin 3, r.matrix i j = max (a.matrix i j) (b.matrix i j))
      ∧ a.add_self = .ok a
      ∧ ∀ i j : Fin 3, a.matrix i j = max (a.matrix i j) (a.matrix i j) :=
  ⟨⟨_, add_eq a b, add_state_eq a b, fun _ _ => rfl⟩, add_self_eq a,
    fun _ _ => (max_self _).symm⟩

/-- C12: with both indices in `0..2`, `setAtLeast(row, col, v)` returns, the
cell `(row, col)` becomes the maximum of its old value and `v`, which is not
below the old value, and the other eight cells keep their values. -/
theorem setAtLeast_cells (m : IntersectionMatrix) (row col v : Int)
    (hr : 0 ≤ row ∧ row < 3) (hc : 0 ≤ col ∧ col < 3) :
    ∃ (r c : Fin 3) (m' : IntersectionMatrix),
      ((r.val : Nat) : Int) = row ∧ ((c.val : Nat) : Int) = col
      ∧ m.setAtLeast row col v = .ok m'
      ∧ m'.matrix r c = max (m.matrix r c) v
      ∧ m.matrix r c ≤ m'.matrix r c
      ∧ ∀ i j : Fin 3, (i ≠ r ∨ j ≠ c) → m'.matrix i j = m.matrix i j := by
  obtain ⟨r, hr1, _⟩ := index_of_valid row hr
  obtain ⟨c, hc1, _⟩ := index_of_valid col hc
  refine ⟨r, c, m.store r c (max (m.matrix r c) v), hr1, hc1, ?_, ?_, ?_, ?_⟩
  · rw [← hr1, ← hc1]
    exact setAtLeast_fin m r c v
  · simp [store]
  · simp [store]
  · intro i j hij
    have hne : ¬ (i = r ∧ j = c) := by
      rintro ⟨h1, h2⟩
      rcases hij with h | h
      · exact h h1
      · exact h h2
    simp only [store, if_neg hne]

/-- Witness for C12: raising the Boundary×Exterior cell of the all-`False`
matrix to `Area`. -/
theorem setAtLeast_cells_witness :
    ((0 : Int) ≤ 1 ∧ (1 : Int) < 3) ∧ ((0 : Int) ≤ 2 ∧ (2 : Int) < 3)
    ∧ ∃ (r c : Fin 3) (m' : IntersectionMatrix),
      ((r.val : Nat) : Int) = 1 ∧ ((c.val : Nat) : Int) = 2
      ∧ mk_default.setAtLeast 1 2 2 = .ok m'
      ∧ m'.matrix r c = max (mk_default.matrix r c) 2
      ∧ mk_default.matrix r c ≤ m'.matrix r c
      ∧ ∀ i j : Fin 3, (i ≠ r ∨ j ≠ c) → m'.matrix i j = mk_default.matrix i j :=
  ⟨by decide, by decide, setAtLeast_cells mk_default 1 2 2 (by decide) (by decide)⟩

/-- C13: `setAtLeastIfValid(row, col, v)` returns the matrix unchanged when
`row < 0` or `col < 0` and is `setAtLeast(row, col, v)` otherwise; with both
indices in `0..2` it therefore returns what `setAtLeast` returns, the matrix
with the cell raised to the maximum. -/
theorem setAtLeastIfValid_eq (m : IntersectionMatrix) (row col v : Int) :
    (m.setAtLeastIfValid row col v
        = if row < 0 ∨ col < 0 then .ok m else m.setAtLeast row col v)
      ∧ ∀ r c : Fin 3,
          m.setAtLeastIfValid ((r.val : Nat) : Int) ((c.val : Nat) : Int) v
            = m.setAtLeast ((r.val : Nat) : Int) ((c.val : Nat) : Int) v
          ∧ m.setAtLeastIfValid ((r.val : Nat) : Int) ((c.val : Nat) : Int) v
            = .ok (m.store r c (max (m.matrix r c) v)) := by
  have key : ∀ row col : Int, m.setAtLeastIfValid row col v
      = if row < 0 ∨ col < 0 then .ok m else m.setAtLeast row col v := by
    intro row col
    unfold setAtLeastIfValid
    by_cases h : row ≥ 0 ∧ col ≥ 0
    · have h2 : ¬ (row < 0 ∨ col < 0) := by omega
      rw [if_pos h, if_neg h2]
    · have h2 : row < 0 ∨ col < 0 := by omega
      rw [if_neg h, if_pos h2]
      rfl
  refine ⟨key row col, fun r c => ?_⟩
  have h2 : ¬ (((r.val : Nat) : Int) < 0 ∨ ((c.val : Nat) : Int) < 0) := by omega
  rw [key, if_neg h2]
  exact ⟨rfl, setAtLeast_fin m r c v⟩

/-- C16: a default-constructed matrix has `False` in all nine cells, and after
`setAll(v)` all nine cells hold `v`, whatever the matrix held before. -/
theorem setAll_cells (m : IntersectionMatrix) (v : Int) :
    (∀ i j : Fin 3, mk_default.matrix i j = Dimension.False)
      ∧ (∀ i j : Fin 3, mk_default.get ((i.val : Nat) : Int) ((j.val : Nat) : Int)
          = .ok Dimension.False)
      ∧ ∀ i j : Fin 3, (m.setAll v).matrix i j = v := by
  refine ⟨mk_default_cells, fun i j => ?_, fun i j => ?_⟩
  · rw [get_fin, mk_default_cells]
  · fin_cases i <;> fin_cases j <;> rfl

/-- C17: after `transpose()` the cell `(i, j)` holds what cell `(j, i)` held
before: the six off-diagonal cells are exchanged in pairs and the three
diagonal cells keep their values. -/
theorem transpose_cells (m : IntersectionMatrix) :
    (∀ i j : Fin 3, m.transpose.matrix i j = m.matrix j i)
      ∧ (∀ i : Fin 3, m.transpose.matrix i i = m.matrix i i)
      ∧ (m.transpose.matrix 0 1 = m.matrix 1 0 ∧ m.transpose.matrix 1 0 = m.matrix 0 1)
      ∧ (m.transpose.matrix 0 2 = m.matrix 2 0 ∧ m.transpose.matrix 2 0 = m.matrix 0 2)
      ∧ (m.transpose.matrix 1 2 = m.matrix 2 1 ∧ m.transpose.matrix 2 1 = m.matrix 1 2) := by
  have h : ∀ i j : Fin 3, m.transpose.matrix i j = m.matrix j i := by
    intro i j
    fin_cases i <;> fin_cases j <;> rfl
  exact ⟨h, fun i => h i i, ⟨h 0 1, h 1 0⟩, ⟨h 0 2, h 2 0⟩, ⟨h 1 2, h 2 1⟩⟩

end IntersectionMatrix

/-! ## Filling the matrix from a symbol string -/

namespace IntersectionMatrix

/-- C14: for a string `s` of nine dimension symbols, `set(s)` returns and
every cell `(row, col)` then holds the dimension value of the character
`s[3*row + col]`, whatever the matrix held before; the same holds for the
matrix constructed from `s`. -/
theorem set_string_cells (m : IntersectionMatrix) (s : String) (hlen : s.length = 9)
    (hsym : ∀ c ∈ s.toList, ∃ v, Dimension.toDimensionValue c = .ok v) :
    (∃ m', m.set_string s = .ok m' ∧ ∀ row col : Fin 3, ∃ c,
        charAt s (3 * row.val + col.val) = .ok c
        ∧ Dimension.toDimensionValue c = .ok (m'.matrix row col))
    ∧ (∃ m', mk_string s = .ok m' ∧ ∀ row col : Fin 3, ∃ c,
        charAt s (3 * row.val + col.val) = .ok c
        ∧ Dimension.toDimensionValue c = .ok (m'.matrix row col)) := by
  obtain ⟨l⟩ := s
  have hl : l.length = 9 := hlen
  match l, hl with
  | [c0, c1, c2, c3, c4, c5, c6, c7, c8], _ =>
    simp only [String.toList, List.mem_cons, List.mem_singleton, List.not_mem_nil,
      or_false, forall_eq_or_imp, forall_eq] at hsym
    obtain ⟨⟨v0, e0⟩, ⟨v1, e1⟩, ⟨v2, e2⟩, ⟨v3, e3⟩, ⟨v4, e4⟩, ⟨v5, e5⟩, ⟨v6, e6⟩,
      ⟨v7, e7⟩, ⟨v8, e8⟩⟩ := hsym
    have i0 : index ((0 : Nat) : Int) = .ok 0 := index_fin 0
    have i1 : index ((1 : Nat) : Int) = .ok 1 := index_fin 1
    have i2 : index ((2 : Nat) : Int) = .ok 2 := index_fin 2
    have hm : ∀ x : IntersectionMatrix,
        x.set_string ⟨[c0, c1, c2, c3, c4, c5, c6, c7, c8]⟩ = .ok
        (((((((((x.store 0 0 v0).store 0 1 v1).store 0 2 v2).store 1 0 v3).store 1 1 v4
          ).store 1 2 v5).store 2 0 v6).store 2 1 v7).store 2 2 v8) := by
      intro x
      simp only [set_string, String.toList, List.enum, List.enumFrom, List.foldlM,
        bind, Except.bind, pure, Except.pure, e0, e1, e2, e3, e4, e5, e6, e7, e8,
        Nat.reduceDiv, Nat.reduceMod, Nat.reduceAdd, i0, i1, i2]
    have hcells : ∀ (x : IntersectionMatrix) (row col : Fin 3), ∃ c,
        charAt ⟨[c0, c1, c2, c3, c4, c5, c6, c7, c8]⟩ (3 * row.val + col.val) = .ok c
        ∧ Dimension.toDimensionValue c = .ok
          ((((((((((x.store 0 0 v0).store 0 1 v1).store 0 2 v2).store 1 0 v3).store 1 1 v4
            ).store 1 2 v5).store 2 0 v6).store 2 1 v7).store 2 2 v8).matrix row col) := by
      intro x row col
      fin_cases row <;> fin_cases col
      · exact ⟨c0, rfl, e0⟩
      · exact ⟨c1, rfl, e1⟩
      · exact ⟨c2, rfl, e2⟩
      · exact ⟨c3, rfl, e3⟩
      · exact ⟨c4, rfl, e4⟩
      · exact ⟨c5, rfl, e5⟩
      · exact ⟨c6, rfl, e6⟩
      · exact ⟨c7, rfl, e7⟩
      · exact ⟨c8, rfl, e8⟩
    exact ⟨⟨_, hm m, hcells m⟩, ⟨_, hm _, hcells _⟩⟩

/-- Witness for C14: the string `FF2FF1212` written over the all-`Area` matrix. -/
theorem set_string_cells_witness :
    ("FF2FF1212").length = 9
    ∧ (∀ c ∈ ("FF2FF1212").toList, ∃ v, Dimension.toDimensionValue c = .ok v)
    ∧ (∃ m', (mk_default.setAll 2).set_string "FF2FF1212" = .ok m' ∧ ∀ row col : Fin 3, ∃ c,
        charAt "FF2FF1212" (3 * row.val + col.val) = .ok c
        ∧ Dimension.toDimensionValue c = .ok (m'.matrix row col))
    ∧ (∃ m', mk_string "FF2FF1212" = .ok m' ∧ ∀ row col : Fin 3, ∃ c,
        charAt "FF2FF1212" (3 * row.val + col.val) = .ok c
        ∧ Dimension.toDimensionValue c = .ok (m'.matrix row col)) :=
  have hsym : ∀ c ∈ ("FF2FF1212").toList, ∃ v, Dimension.toDimensionValue c = .ok v := by
    intro c hc
    simp only [String.toList, List.mem_cons, List.mem_singleton, List.not_mem_nil,
      or_false] at hc
    rcases hc with h | h | h | h | h | h | h | h | h <;> subst h <;> exact ⟨_, rfl⟩
  ⟨by decide, hsym, set_string_cells (mk_default.setAll 2) "FF2FF1212" (by decide) hsym⟩

/-- C15: for a string `s` of nine dimension symbols, `setAtLeast(s)` returns
and every cell `(row, col)` then holds the maximum of its old value and the
dimension value of the character `s[3*row + col]`. -/
theorem setAtLeast_string_cells (m : IntersectionMatrix) (s : String) (hlen : s.length = 9)
    (hsym : ∀ c ∈ s.toList, ∃ v, Dimension.toDimensionValue c = .ok v) :
    ∃ m', m.setAtLeast_string s = .ok m' ∧ ∀ row col : Fin 3, ∃ c v,
      charAt s (3 * row.val + col.val) = .ok c
      ∧ Dimension.toDimensionValue c = .ok v
      ∧ m'.matrix row col = max (m.matrix row col) v := by
  obtain ⟨l⟩ := s
  have hl : l.length = 9 := hlen
  match l, hl with
  | [c0, c1, c2, c3, c4, c5, c6, c7, c8], _ =>
    simp only [String.toList, List.mem_cons, List.mem_singleton, List.not_mem_nil,
      or_false, forall_eq_or_imp, forall_eq] at hsym
    obtain ⟨⟨v0, e0⟩, ⟨v1, e1⟩, ⟨v2, e2⟩, ⟨v3, e3⟩, ⟨v4, e4⟩, ⟨v5, e5⟩, ⟨v6, e6⟩,
      ⟨v7, e7⟩, ⟨v8, e8⟩⟩ := hsym
    have s00 : ∀ (x : IntersectionMatrix) (v : Int), x.setAtLeast ((0 : Nat) : Int)
        ((0 : Nat) : Int) v = .ok (x.store 0 0 (max (x.matrix 0 0) v)) :=
      fun x v => setAtLeast_fin x 0 0 v
    have s01 : ∀ (x : IntersectionMatrix) (v : Int), x.setAtLeast ((0 : Nat) : Int)
        ((1 : Nat) : Int) v = .ok (x.store 0 1 (max (x.matrix 0 1) v)) :=
      fun x v => setAtLeast_fin x 0 1 v
    have s02 : ∀ (x : IntersectionMatrix) (v : Int), x.setAtLeast ((0 : Nat) : Int)
        ((2 : Nat) : Int) v = .ok (x.store 0 2 (max (x.matrix 0 2) v)) :=
      fun x v => setAtLeast_fin x 0 2 v
    have s10 : ∀ (x : IntersectionMatrix) (v : Int), x.setAtLeast ((1 : Nat) : Int)
        ((0 : Nat) : Int) v = .ok (x.store 1 0 (max (x.matrix 1 0) v)) :=
      fun x v => setAtLeast_fin x 1 0 v
    have s11 : ∀ (x : IntersectionMatrix) (v : Int), x.setAtLeast ((1 : Nat) : Int)
        ((1 : Nat) : Int) v = .ok (x.store 1 1 (max (x.matrix 1 1) v)) :=
      fun x v => setAtLeast_fin x 1 1 v
    have s12 : ∀ (x : IntersectionMatrix) (v : Int), x.setAtLeast ((1 : Nat) : Int)
        ((2 : Nat) : Int) v = .ok (x.store 1 2 (max (x.matrix 1 2) v)) :=
      fun x v => setAtLeast_fin x 1 2 v
    have s20 : ∀ (x : IntersectionMatrix) (v : Int), x.setAtLeast ((2 : Nat) : Int)
        ((0 : Nat) : Int) v = .ok (x.store 2 0 (max (x.matrix 2 0) v)) :=
      fun x v => setAtLeast_fin x 2 0 v
    have s21 : ∀ (x : IntersectionMatrix) (v : Int), x.setAtLeast ((2 : Nat) : Int)
        ((1 : Nat) : Int) v = .ok (x.store 2 1 (max (x.matrix 2 1) v)) :=
      fun x v => setAtLeast_fin x 2 1 v
    have s22 : ∀ (x : IntersectionMatrix) (v : Int), x.setAtLeast ((2 : Nat) : Int)
        ((2 : Nat) : Int) v = .ok (x.store 2 2 (max (x.matrix 2 2) v)) :=
      fun x v => setAtLeast_fin x 2 2 v
    have hm : m.setAtLeast_string ⟨[c0, c1, c2, c3, c4, c5, c6, c7, c8]⟩ = .ok
        ⟨fun i j => max (m.matrix i j)
          (([[v0, v1, v2], [v3, v4, v5], [v6, v7, v8]].getD i.val []).getD j.val 0)⟩ := by
      simp only [setAtLeast_string, String.toList, List.enum, List.enumFrom, List.foldlM,
        bind, Except.bind, pure, Except.pure, e0, e1, e2, e3, e4, e5, e6, e7, e8,
        Nat.reduceDiv, Nat.reduceMod, Nat.reduceAdd, s00, s01, s02, s10, s11, s12,
        s20, s21, s22]
      congr
      apply ext_cells
      intro i j
      fin_cases i <;> fin_cases j <;> simp [store]
    refine ⟨_, hm, ?_⟩
    intro row col
    fin_cases row <;> fin_cases col
    · exact ⟨c0, v0, rfl, e0, rfl⟩
    · exact ⟨c1, v1, rfl, e1, rfl⟩
    · exact ⟨c2, v2, rfl, e2, rfl⟩
    · exact ⟨c3, v3, rfl, e3, rfl⟩
    · exact ⟨c4, v4, rfl, e4, rfl⟩
    · exact ⟨c5, v5, rfl, e5, rfl⟩
    · exact ⟨c6, v6, rfl, e6, rfl⟩
    · exact ⟨c7, v7, rfl, e7, rfl⟩
    · exact ⟨c8, v8, rfl, e8, rfl⟩

/-- Witness for C15: the string `FF2FF1212` merged into the all-`Line` matrix. -/
theorem setAtLeast_string_cells_witness :
    ("FF2FF1212").length = 9
    ∧ (∀ c ∈ ("FF2FF1212").toList, ∃ v, Dimension.toDimensionValue c = .ok v)
    ∧ ∃ m', (mk_default.setAll 1).setAtLeast_string "FF2FF1212" = .ok m'
      ∧ ∀ row col : Fin 3, ∃ c v,
        charAt "FF2FF1212" (3 * row.val + col.val) = .ok c
        ∧ Dimension.toDimensionValue c = .ok v
        ∧ m'.matrix row col = max ((mk_default.setAll 1).matrix row col) v :=
  have hsym : ∀ c ∈ ("FF2FF1212").toList, ∃ v, Dimension.toDimensionValue c = .ok v := by
    intro c hc
    simp only [String.toList, List.mem_cons, List.mem_singleton, List.not_mem_nil,
      or_false] at hc
    rcases hc with h | h | h | h | h | h | h | h | h <;> subst h <;> exact ⟨_, rfl⟩
  ⟨by decide, hsym,
    setAtLeast_string_cells (mk_default.setAll 1) "FF2FF1212" (by decide) hsym⟩

end IntersectionMatrix

/-! ## The predicate `isTouches` -/

namespace IntersectionMatrix

/-- With the larger dimension first, `isTouches` is its value on the swapped
arguments. -/
theorem isTouches_of_gt (dimTrue : Int) (m : IntersectionMatrix) (a b : Int) (h : a > b) :
    isTouches dimTrue m a b = isTouches dimTrue m b a := by
  conv_lhs => rw [isTouches]
  rw [if_pos h]

/-- With the smaller dimension first, `isTouches` is the cell formula on the
five dimension pairs and `false` on all others. -/
theorem isTouches_of_le (dimTrue : Int) (m : IntersectionMatrix) (a b : Int) (h : a ≤ b) :
    isTouches dimTrue m a b =
      if (a = Dimension.A ∧ b = Dimension.A) ∨ (a = Dimension.L ∧ b = Dimension.L)
          ∨ (a = Dimension.L ∧ b = Dimension.A) ∨ (a = Dimension.P ∧ b = Dimension.A)
          ∨ (a = Dimension.P ∧ b = Dimension.L) then
        m.matrix Location.INTERIOR Location.INTERIOR == Dimension.False
        && (matches_int_char dimTrue (m.matrix Location.INTERIOR Location.BOUNDARY) 'T'
          || matches_int_char dimTrue (m.matrix Location.BOUNDARY Location.INTERIOR) 'T'
          || matches_int_char dimTrue (m.matrix Location.BOUNDARY Location.BOUNDARY) 'T')
      else false := by
  conv_lhs => rw [isTouches]
  rw [if_neg (not_lt.mpr h)]

/-- The order of the two dimension arguments does not matter to `isTouches`. -/
theorem isTouches_swap (dimTrue : Int) (m : IntersectionMatrix) (a b : Int) :
    isTouches dimTrue m a b = isTouches dimTrue m b a := by
  rcases lt_trichotomy a b with h | h | h
  · exact (isTouches_of_gt dimTrue m b a h).symm
  · rw [h]
  · exact isTouches_of_gt dimTrue m a b h

/-- Transposing the matrix does not change `isTouches`. -/
theorem isTouches_transpose (dimTrue : Int) (m : IntersectionMatrix) (a b : Int) :
    isTouches dimTrue m.transpose a b = isTouches dimTrue m a b := by
  have hII : m.transpose.matrix Location.INTERIOR Location.INTERIOR
      = m.matrix Location.INTERIOR Location.INTERIOR := rfl
  have hIB : m.transpose.matrix Location.INTERIOR Location.BOUNDARY
      = m.matrix Location.BOUNDARY Location.INTERIOR := rfl
  have hBI : m.transpose.matrix Location.BOUNDARY Location.INTERIOR
      = m.matrix Location.INTERIOR Location.BOUNDARY := rfl
  have hBB : m.transpose.matrix Location.BOUNDARY Location.BOUNDARY
      = m.matrix Location.BOUNDARY Location.BOUNDARY := rfl
  have key : ∀ x y : Int, x ≤ y →
      isTouches dimTrue m.transpose x y = isTouches dimTrue m x y := by
    intro x y hxy
    rw [isTouches_of_le dimTrue m.transpose x y hxy, isTouches_of_le dimTrue m x y hxy,
      hII, hIB, hBI, hBB,
      Bool.or_comm (matches_int_char dimTrue (m.matrix Location.BOUNDARY Location.INTERIOR) 'T')]
  rcases le_or_lt a b with h | h
  · exact key a b h
  · rw [isTouches_of_gt dimTrue m.transpose a b h, isTouches_of_gt dimTrue m a b h]
    exact key b a (le_of_lt h)

/-- C18: `isTouches(a, b)` equals `isTouches(b, a)` on the same matrix for all
integer arguments; the function returns, and on the way it calls itself at
most once. -/
theorem isTouches_symm_terminates (dimTrue : Int) (m : IntersectionMatrix) (a b : Int) :
    isTouches dimTrue m a b = isTouches dimTrue m b a
      ∧ (isTouches_counted dimTrue m a b).1 = isTouches dimTrue m a b
      ∧ (isTouches_counted dimTrue m a b).2 ≤ 1 := by
  have base : ∀ x y : Int, x ≤ y →
      (isTouches_counted dimTrue m x y).1 = isTouches dimTrue m x y
        ∧ (isTouches_counted dimTrue m x y).2 = 0 := by
    intro x y hxy
    rw [isTouches_of_le dimTrue m x y hxy, isTouches_counted, if_neg (not_lt.mpr hxy)]
    split_ifs <;> exact ⟨rfl, rfl⟩
  refine ⟨isTouches_swap dimTrue m a b, ?_⟩
  rcases le_or_lt a b with h | h
  · obtain ⟨h1, h2⟩ := base a b h
    exact ⟨h1, by omega⟩
  · obtain ⟨h1, h2⟩ := base b a (le_of_lt h)
    rw [isTouches_of_gt dimTrue m a b h, isTouches_counted, if_pos h]
    exact ⟨h1, by simp only [h2]; omega⟩

/-- C19: `isTouches(a, b)` on a matrix equals `isTouches(b, a)` on its
transpose, for all integer arguments. -/
theorem isTouches_swap_transpose (dimTrue : Int) (m : IntersectionMatrix) (a b : Int) :
    isTouches dimTrue m a b = isTouches dimTrue m.transpose b a := by
  rw [isTouches_transpose, isTouches_swap]

/-- C20: for `a <= b`, on the pairs area/area, line/line, line/area,
point/area and point/line `isTouches(a, b)` is true exactly when
Interior×Interior is `False` and one of Interior×Boundary,
Boundary×Interior, Boundary×Boundary matches `T`; on every other pair it is
false. -/
theorem isTouches_iff (dimTrue : Int) (m : IntersectionMatrix) (a b : Int) (h : a ≤ b) :
    (((a = Dimension.A ∧ b = Dimension.A) ∨ (a = Dimension.L ∧ b = Dimension.L)
        ∨ (a = Dimension.L ∧ b = Dimension.A) ∨ (a = Dimension.P ∧ b = Dimension.A)
        ∨ (a = Dimension.P ∧ b = Dimension.L)) →
      (isTouches dimTrue m a b = true ↔
        m.matrix Location.INTERIOR Location.INTERIOR = Dimension.False
        ∧ (matches_int_char dimTrue (m.matrix Location.INTERIOR Location.BOUNDARY) 'T' = true
          ∨ matches_int_char dimTrue (m.matrix Location.BOUNDARY Location.INTERIOR) 'T' = true
          ∨ matches_int_char dimTrue (m.matrix Location.BOUNDARY Location.BOUNDARY) 'T' = true)))
    ∧ (¬ ((a = Dimension.A ∧ b = Dimension.A) ∨ (a = Dimension.L ∧ b = Dimension.L)
        ∨ (a = Dimension.L ∧ b = Dimension.A) ∨ (a = Dimension.P ∧ b = Dimension.A)
        ∨ (a = Dimension.P ∧ b = Dimension.L)) →
      isTouches dimTrue m a b = false) := by
  rw [isTouches_of_le dimTrue m a b h]
  constructor
  · intro hp
    rw [if_pos hp]
    simp only [Bool.and_eq_true, Bool.or_eq_true, beq_iff_eq, or_assoc]
  · intro hp
    rw [if_neg hp]

/-- Witness for C20: a line and an area whose boundaries meet in a point. -/
theorem isTouches_iff_witness :
    (1 : Int) ≤ 2
    ∧ ((((1 : Int) = Dimension.A ∧ (2 : Int) = Dimension.A)
        ∨ ((1 : Int) = Dimension.L ∧ (2 : Int) = Dimension.L)
        ∨ ((1 : Int) = Dimension.L ∧ (2 : Int) = Dimension.A)
        ∨ ((1 : Int) = Dimension.P ∧ (2 : Int) = Dimension.A)
        ∨ ((1 : Int) = Dimension.P ∧ (2 : Int) = Dimension.L)) →
      (isTouches (-2) (mk_default.store 1 1 0) 1 2 = true ↔
        (mk_default.store 1 1 0).matrix Location.INTERIOR Location.INTERIOR = Dimension.False
        ∧ (matches_int_char (-2)
              ((mk_default.store 1 1 0).matrix Location.INTERIOR Location.BOUNDARY) 'T' = true
          ∨ matches_int_char (-2)
              ((mk_default.store 1 1 0).matrix Location.BOUNDARY Location.INTERIOR) 'T' = true
          ∨ matches_int_char (-2)
              ((mk_default.store 1 1 0).matrix Location.BOUNDARY Location.BOUNDARY) 'T' = true)))
    ∧ (¬ (((1 : Int) = Dimension.A ∧ (2 : Int) = Dimension.A)
        ∨ ((1 : Int) = Dimension.L ∧ (2 : Int) = Dimension.L)
        ∨ ((1 : Int) = Dimension.L ∧ (2 : Int) = Dimension.A)
        ∨ ((1 : Int) = Dimension.P ∧ (2 : Int) = Dimension.A)
        ∨ ((1 : Int) = Dimension.P ∧ (2 : Int) = Dimension.L)) →
      isTouches (-2) (mk_default.store 1 1 0) 1 2 = false) :=
  ⟨by decide, isTouches_iff (-2) (mk_default.store 1 1 0) 1 2 (by decide)⟩

end IntersectionMatrix

/-! ## The predicates `isCrosses`, `isWithin`, `isContains`, `isEquals`, `isOverlaps` -/

namespace IntersectionMatrix

/-- Each `int` is `0`, `1`, `2` or none of them. -/
theorem dimension_cases (a : Int) : a = 0 ∨ a = 1 ∨ a = 2 ∨ (a ≠ 0 ∧ a ≠ 1 ∧ a ≠ 2) := by
  omega

/-- C21: `isCrosses(a, b)` on point/line, point/area, line/area is true
exactly when Interior×Interior and Interior×Exterior both match `T`; on
line/point, area/point, area/line exactly when Interior×Interior and
Exterior×Interior both match `T`; on line/line exactly when
Interior×Interior is `0`; on every other pair it is false. -/
theorem isCrosses_iff (dimTrue : Int) (m : IntersectionMatrix) (a b : Int) :
    (((a = Dimension.P ∧ b = Dimension.L) ∨ (a = Dimension.P ∧ b = Dimension.A)
        ∨ (a = Dimension.L ∧ b = Dimension.A)) →
      (isCrosses dimTrue m a b = true ↔
        matches_int_char dimTrue (m.matrix Location.INTERIOR Location.INTERIOR) 'T' = true
        ∧ matches_int_char dimTrue (m.matrix Location.INTERIOR Location.EXTERIOR) 'T' = true))
    ∧ (((a = Dimension.L ∧ b = Dimension.P) ∨ (a = Dimension.A ∧ b = Dimension.P)
        ∨ (a = Dimension.A ∧ b = Dimension.L)) →
      (isCrosses dimTrue m a b = true ↔
        matches_int_char dimTrue (m.matrix Location.INTERIOR Location.INTERIOR) 'T' = true
        ∧ matches_int_char dimTrue (m.matrix Location.EXTERIOR Location.INTERIOR) 'T' = true))
    ∧ ((a = Dimension.L ∧ b = Dimension.L) →
      (isCrosses dimTrue m a b = true ↔ m.matrix Location.INTERIOR Location.INTERIOR = 0))
    ∧ (¬ ((a = Dimension.P ∧ b = Dimension.L) ∨ (a = Dimension.P ∧ b = Dimension.A)
        ∨ (a = Dimension.L ∧ b = Dimension.A) ∨ (a = Dimension.L ∧ b = Dimension.P)
        ∨ (a = Dimension.A ∧ b = Dimension.P) ∨ (a = Dimension.A ∧ b = Dimension.L)
        ∨ (a = Dimension.L ∧ b = Dimension.L)) →
      isCrosses dimTrue m a b = false) := by
  refine ⟨?_, ?_, ?_, ?_⟩
  · intro h
    rw [isCrosses, if_pos h]
    simp only [Bool.and_eq_true]
  · intro h
    rcases h with ⟨rfl, rfl⟩ | ⟨rfl, rfl⟩ | ⟨rfl, rfl⟩ <;>
      simp [isCrosses, Dimension.P, Dimension.L, Dimension.A]
  · rintro ⟨rfl, rfl⟩
    simp [isCrosses, Dimension.P, Dimension.L, Dimension.A]
  · intro h
    simp only [not_or] at h
    obtain ⟨n1, n2, n3, n4, n5, n6, n7⟩ := h
    rw [isCrosses, if_neg (by rintro (h | h | h); exacts [n1 h, n2 h, n3 h]),
      if_neg (by rintro (h | h | h); exacts [n4 h, n5 h, n6 h]), if_neg n7]

/-- C22: `isWithin()` is true exactly when Interior×Interior matches `T` and
Interior×Exterior and Boundary×Exterior are `False`; `isContains()` is true
exactly when Interior×Interior matches `T` and Exterior×Interior and
Exterior×Boundary are `False`. -/
theorem isWithin_isContains_iff (dimTrue : Int) (m : IntersectionMatrix) :
    (isWithin dimTrue m = true ↔
      matches_int_char dimTrue (m.matrix Location.INTERIOR Location.INTERIOR) 'T' = true
      ∧ m.matrix Location.INTERIOR Location.EXTERIOR = Dimension.False
      ∧ m.matrix Location.BOUNDARY Location.EXTERIOR = Dimension.False)
    ∧ (isContains dimTrue m = true ↔
      matches_int_char dimTrue (m.matrix Location.INTERIOR Location.INTERIOR) 'T' = true
      ∧ m.matrix Location.EXTERIOR Location.INTERIOR = Dimension.False
      ∧ m.matrix Location.EXTERIOR Location.BOUNDARY = Dimension.False) := by
  constructor
  · simp only [isWithin, Bool.and_eq_true, beq_iff_eq, and_assoc]
  · simp only [isContains, Bool.and_eq_true, beq_iff_eq, and_assoc]

/-- C23: `isContains()` on a matrix equals `isWithin()` on its transpose, and
`isWithin()` on a matrix equals `isContains()` on its transpose. -/
theorem isContains_eq_isWithin_transpose (dimTrue : Int) (m : IntersectionMatrix) :
    isContains dimTrue m = isWithin dimTrue m.transpose
      ∧ isWithin dimTrue m = isContains dimTrue m.transpose :=
  ⟨rfl, rfl⟩

/-- C24: `isEquals(a, b)` is false when `a != b`; when `a == b` it is true
exactly when Interior×Interior matches `T` and Exterior×Interior,
Interior×Exterior, Exterior×Boundary and Boundary×Exterior are `False`. -/
theorem isEquals_iff (dimTrue : Int) (m : IntersectionMatrix) (a b : Int) :
    (a ≠ b → isEquals dimTrue m a b = false)
    ∧ (a = b → (isEquals dimTrue m a b = true ↔
      matches_int_char dimTrue (m.matrix Location.INTERIOR Location.INTERIOR) 'T' = true
      ∧ m.matrix Location.EXTERIOR Location.INTERIOR = Dimension.False
      ∧ m.matrix Location.INTERIOR Location.EXTERIOR = Dimension.False
      ∧ m.matrix Location.EXTERIOR Location.BOUNDARY = Dimension.False
      ∧ m.matrix Location.BOUNDARY Location.EXTERIOR = Dimension.False)) := by
  constructor
  · intro h
    rw [isEquals, if_pos h]
  · intro h
    rw [isEquals, if_neg (not_not.mpr h)]
    simp only [Bool.and_eq_true, beq_iff_eq, and_assoc]

/-- C25: `isOverlaps(a, b)` on point/point and area/area is true exactly when
Interior×Interior, Interior×Exterior and Exterior×Interior all match `T`; on
line/line exactly when Interior×Interior is `1` and Interior×Exterior and
Exterior×Interior match `T`; on every other pair, so on every pair of unequal
dimensions, it is false. -/
theorem isOverlaps_iff (dimTrue : Int) (m : IntersectionMatrix) (a b : Int) :
    (((a = Dimension.P ∧ b = Dimension.P) ∨ (a = Dimension.A ∧ b = Dimension.A)) →
      (isOverlaps dimTrue m a b = true ↔
        matches_int_char dimTrue (m.matrix Location.INTERIOR Location.INTERIOR) 'T' = true
        ∧ matches_int_char dimTrue (m.matrix Location.INTERIOR Location.EXTERIOR) 'T' = true
        ∧ matches_int_char dimTrue (m.matrix Location.EXTERIOR Location.INTERIOR) 'T' = true))
    ∧ ((a = Dimension.L ∧ b = Dimension.L) →
      (isOverlaps dimTrue m a b = true ↔
        m.matrix Location.INTERIOR Location.INTERIOR = 1
        ∧ matches_int_char dimTrue (m.matrix Location.INTERIOR Location.EXTERIOR) 'T' = true
        ∧ matches_int_char dimTrue (m.matrix Location.EXTERIOR Location.INTERIOR) 'T' = true))
    ∧ (¬ ((a = Dimension.P ∧ b = Dimension.P) ∨ (a = Dimension.A ∧ b = Dimension.A)
        ∨ (a = Dimension.L ∧ b = Dimension.L)) →
      isOverlaps dimTrue m a b = false)
    ∧ (a ≠ b → isOverlaps dimTrue m a b = false) := by
  have hother : ¬ ((a = Dimension.P ∧ b = Dimension.P) ∨ (a = Dimension.A ∧ b = Dimension.A)
        ∨ (a = Dimension.L ∧ b = Dimension.L)) → isOverlaps dimTrue m a b = false := by
    intro h
    simp only [not_or] at h
    obtain ⟨n1, n2, n3⟩ := h
    rw [isOverlaps, if_neg (by rintro (h | h); exacts [n1 h, n2 h]), if_neg n3]
  refine ⟨?_, ?_, hother, ?_⟩
  · intro h
    rw [isOverlaps, if_pos h]
    simp only [Bool.and_eq_true, and_assoc]
  · rintro ⟨rfl, rfl⟩
    simp [isOverlaps, Dimension.P, Dimension.L, Dimension.A, and_assoc]
  · intro hab
    apply hother
    rintro (⟨h1, h2⟩ | ⟨h1, h2⟩ | ⟨h1, h2⟩) <;> exact hab (h1.trans h2.symm)

end IntersectionMatrix

/-! ## Relations between the predicates -/

namespace IntersectionMatrix

/-- A cell holding `False` does not match `T` when the `True` sentinel is a
value other than `False`. -/
theorem matches_T_False (dimTrue : Int) (hT : dimTrue ≠ Dimension.False) :
    matches_int_char dimTrue Dimension.False 'T' = false := by
  have h1 : ¬ ((-1 : Int) = dimTrue) := fun h => hT h.symm
  simp [matches_int_char, h1, Dimension.False, Dimension.P, Dimension.L, Dimension.A]

/-- C29: when `isDisjoint()` is true, `isTouches(a, b)`, `isCrosses(a, b)`,
`isWithin()`, `isContains()`, `isEquals(a, b)` and `isOverlaps(a, b)` are all
false, for all dimension arguments; the `True` sentinel is taken to differ
from `False`. -/
theorem isDisjoint_excludes (dimTrue : Int) (m : IntersectionMatrix) (a b : Int)
    (hT : dimTrue ≠ Dimension.False) (hd : m.isDisjoint = true) :
    isTouches dimTrue m a b = false
      ∧ isCrosses dimTrue m a b = false
      ∧ isWithin dimTrue m = false
      ∧ isContains dimTrue m = false
      ∧ isEquals dimTrue m a b = false
      ∧ isOverlaps dimTrue m a b = false := by
  simp only [isDisjoint, Bool.and_eq_true, beq_iff_eq, and_assoc] at hd
  obtain ⟨hII, hIB, hBI, hBB⟩ := hd
  have hm := matches_T_False dimTrue hT
  have htouch : ∀ x y : Int, x ≤ y → isTouches dimTrue m x y = false := by
    intro x y hxy
    rw [isTouches_of_le dimTrue m x y hxy, hII, hIB, hBI, hBB, hm]
    split_ifs <;> rfl
  refine ⟨?_, ?_, ?_, ?_, ?_, ?_⟩
  · rcases le_or_lt a b with h | h
    · exact htouch a b h
    · rw [isTouches_of_gt dimTrue m a b h]
      exact htouch b a (le_of_lt h)
  · rw [isCrosses, hII, hm]
    split_ifs <;> rfl
  · rw [isWithin, hII, hm]
    rfl
  · rw [isContains, hII, hm]
    rfl
  · rw [isEquals, hII, hm]
    split_ifs <;> rfl
  · rw [isOverlaps, hII, hm]
    split_ifs <;> rfl

/-- Witness for C29: the freshly constructed all-`False` matrix, a line and an
area, with `-2` for the `True` sentinel. -/
theorem isDisjoint_excludes_witness :
    (-2 : Int) ≠ Dimension.False ∧ mk_default.isDisjoint = true
      ∧ isTouches (-2) mk_default 1 2 = false
      ∧ isCrosses (-2) mk_default 1 2 = false
      ∧ isWithin (-2) mk_default = false
      ∧ isContains (-2) mk_default = false
      ∧ isEquals (-2) mk_default 1 2 = false
      ∧ isOverlaps (-2) mk_default 1 2 = false :=
  ⟨by decide, by decide, isDisjoint_excludes (-2) mk_default 1 2 (by decide) (by decide)⟩

/-- C30: `isCrosses(a, b)` on a matrix equals `isCrosses(b, a)` on its
transpose, and `isOverlaps(a, b)` on a matrix equals `isOverlaps(b, a)` on its
transpose, for all dimension arguments. -/
theorem isCrosses_isOverlaps_swap_transpose (dimTrue : Int) (m : IntersectionMatrix)
    (a b : Int) :
    isCrosses dimTrue m a b = isCrosses dimTrue m.transpose b a
      ∧ isOverlaps dimTrue m a b = isOverlaps dimTrue m.transpose b a := by
  have hII : m.transpose.matrix Location.INTERIOR Location.INTERIOR
      = m.matrix Location.INTERIOR Location.INTERIOR := rfl
  have hIE : m.transpose.matrix Location.INTERIOR Location.EXTERIOR
      = m.matrix Location.EXTERIOR Location.INTERIOR := rfl
  have hEI : m.transpose.matrix Location.EXTERIOR Location.INTERIOR
      = m.matrix Location.INTERIOR Location.EXTERIOR := rfl
  constructor
  · simp only [isCrosses, hII, hIE, hEI, Dimension.P, Dimension.L, Dimension.A]
    rcases dimension_cases a with rfl | rfl | rfl | ⟨a0, a1, a2⟩ <;>
      rcases dimension_cases b with rfl | rfl | rfl | ⟨b0, b1, b2⟩ <;>
      simp [*]
  · simp only [isOverlaps, hII, hIE, hEI, Dimension.P, Dimension.L, Dimension.A]
    rcases dimension_cases a with rfl | rfl | rfl | ⟨a0, a1, a2⟩ <;>
      rcases dimension_cases b with rfl | rfl | rfl | ⟨b0, b1, b2⟩ <;>
      simp [*, Bool.and_comm, Bool.and_left_comm]

end IntersectionMatrix

/-! ## The stored-value invariant -/

/-- An index either lies in the array or the access is out of bounds. -/
theorem index_cases (i : Int) : (∃ r, index i = .ok r) ∨ index i = .error .OutOfBounds := by
  unfold index
  split_ifs
  · exact Or.inl ⟨_, rfl⟩
  · exact Or.inr rfl

/-- A position below nine has its row and its column inside the array. -/
theorem index_div_mod (n : Nat) (h : n < 9) :
    (∃ r, index ((n / 3 : Nat) : Int) = .ok r) ∧ (∃ c, index ((n % 3 : Nat) : Int) = .ok c) := by
  have h1 : n / 3 < 3 := by omega
  have h2 : n % 3 < 3 := by omega
  exact ⟨⟨_, index_fin ⟨n / 3, h1⟩⟩, ⟨_, index_fin ⟨n % 3, h2⟩⟩⟩

/-- The dimension table only yields dimension values. -/
theorem Dimension.toDimensionValue_isDimensionValue (c : Char) (v : Int)
    (h : Dimension.toDimensionValue c = .ok v) : IntersectionMatrix.isDimensionValue v := by
  unfold Dimension.toDimensionValue at h
  unfold IntersectionMatrix.isDimensionValue
  split_ifs at h <;> injection h with h <;> subst h <;> simp

/-- Each of the symbols `F`, `0`, `1`, `2` has a dimension value. -/
theorem Dimension.toDimensionValue_of_symbol (c : Char) (h : c ∈ ['F', '0', '1', '2']) :
    ∃ v, Dimension.toDimensionValue c = .ok v := by
  simp only [List.mem_cons, List.mem_singleton, List.not_mem_nil, or_false] at h
  rcases h with h | h | h | h <;> subst h <;> exact ⟨_, rfl⟩

namespace IntersectionMatrix

theorem store_inv (m : IntersectionMatrix) (r c : Fin 3) (v : Int)
    (hm : storesDimensionValues m) (hv : isDimensionValue v) :
    storesDimensionValues (m.store r c v) := by
  intro i j
  simp only [store]
  split_ifs
  · exact hv
  · exact hm i j

theorem set_inv (m m' : IntersectionMatrix) (row col v : Int)
    (hm : storesDimensionValues m) (hv : isDimensionValue v)
    (h : m.set row col v = .ok m') : storesDimensionValues m' := by
  unfold set at h
  rcases index_cases row with ⟨r, hr⟩ | hr <;> rcases index_cases col with ⟨c, hc⟩ | hc <;>
    simp only [hr, hc, bind, Except.bind, pure, Except.pure, Except.ok.injEq,
      reduceCtorEq] at h
  subst h
  exact store_inv m r c v hm hv

theorem setAtLeast_inv (m m' : IntersectionMatrix) (row col v : Int)
    (hm : storesDimensionValues m) (hv : isDimensionValue v)
    (h : m.setAtLeast row col v = .ok m') : storesDimensionValues m' := by
  unfold setAtLeast at h
  rcases index_cases row with ⟨r, hr⟩ | hr <;> rcases index_cases col with ⟨c, hc⟩ | hc <;>
    simp only [hr, hc, bind, Except.bind, pure, Except.pure, reduceCtorEq] at h
  split_ifs at h <;> injection h with h <;> subst h
  · exact store_inv m r c v hm hv
  · exact hm

theorem setAtLeastIfValid_inv (m m' : IntersectionMatrix) (row col v : Int)
    (hm : storesDimensionValues m) (hv : isDimensionValue v)
    (h : m.setAtLeastIfValid row col v = .ok m') : storesDimensionValues m' := by
  unfold setAtLeastIfValid at h
  split_ifs at h
  · exact setAtLeast_inv m m' row col v hm hv h
  · injection h with h
    subst h
    exact hm

theorem set_ok (m : IntersectionMatrix) (row col v : Int)
    (hr : 0 ≤ row ∧ row < 3) (hc : 0 ≤ col ∧ col < 3) : ∃ m', m.set row col v = .ok m' := by
  obtain ⟨r, _, hr2⟩ := index_of_valid row hr
  obtain ⟨c, _, hc2⟩ := index_of_valid col hc
  refine ⟨m.store r c v, ?_⟩
  simp only [set, hr2, hc2, bind, Except.bind, pure, Except.pure]

theorem setAtLeast_ok (m : IntersectionMatrix) (row col v : Int)
    (hr : 0 ≤ row ∧ row < 3) (hc : 0 ≤ col ∧ col < 3) :
    ∃ m', m.setAtLeast row col v = .ok m' := by
  obtain ⟨r, hr1, _⟩ := index_of_valid row hr
  obtain ⟨c, hc1, _⟩ := index_of_valid col hc
  rw [← hr1, ← hc1]
  exact ⟨_, setAtLeast_fin m r c v⟩

theorem setAtLeastIfValid_ok (m : IntersectionMatrix) (row col v : Int)
    (h : (row < 0 ∨ col < 0) ∨ (row < 3 ∧ col < 3)) :
    ∃ m', m.setAtLeastIfValid row col v = .ok m' := by
  unfold setAtLeastIfValid
  split_ifs with hge
  · exact setAtLeast_ok m row col v (by omega) (by omega)
  · exact ⟨m, rfl⟩

end IntersectionMatrix

namespace IntersectionMatrix

theorem set_string_fold_inv (l : List (Nat × Char)) (m m' : IntersectionMatrix)
    (hm : storesDimensionValues m)
    (h : l.foldlM
      (fun m (ic : Nat × Char) => do
        let value ← Dimension.toDimensionValue ic.2
        let row ← index ((ic.1 / 3 : Nat) : Int)
        let col ← index ((ic.1 % 3 : Nat) : Int)
        pure (m.store row col value))
      m = .ok m') : storesDimensionValues m' := by
  induction l generalizing m with
  | nil =>
    simp only [List.foldlM_nil, pure, Except.pure] at h
    injection h with h
    subst h
    exact hm
  | cons ic l ih =>
    rw [List.foldlM_cons] at h
    cases hv : Dimension.toDimensionValue ic.2 with
    | error e => simp only [hv, bind, Except.bind, reduceCtorEq] at h
    | ok v =>
      rcases index_cases ((ic.1 / 3 : Nat) : Int) with ⟨r, hr⟩ | hr <;>
        rcases index_cases ((ic.1 % 3 : Nat) : Int) with ⟨c, hc⟩ | hc <;>
        simp only [hv, hr, hc, bind, Except.bind, pure, Except.pure, reduceCtorEq] at h
      exact ih _ (store_inv m r c v hm (Dimension.toDimensionValue_isDimensionValue _ _ hv)) h

theorem set_string_fold_ok (l : List Char) (n : Nat) (m : IntersectionMatrix)
    (hlen : n + l.length ≤ 9) (hsym : ∀ c ∈ l, ∃ v, Dimension.toDimensionValue c = .ok v) :
    ∃ m', (l.enumFrom n).foldlM
      (fun m (ic : Nat × Char) => do
        let value ← Dimension.toDimensionValue ic.2
        let row ← index ((ic.1 / 3 : Nat) : Int)
        let col ← index ((ic.1 % 3 : Nat) : Int)
        pure (m.store row col value))
      m = .ok m' := by
  induction l generalizing n m with
  | nil => exact ⟨m, rfl⟩
  | cons c l ih =>
    obtain ⟨v, hv⟩ := hsym c (List.mem_cons_self c l)
    have hn : n < 9 := by
      simp only [List.length_cons] at hlen
      omega
    obtain ⟨⟨r, hr⟩, ⟨k, hk⟩⟩ := index_div_mod n hn
    simp only [List.enumFrom, List.foldlM_cons, hv, hr, hk, bind, Except.bind, pure,
      Except.pure]
    apply ih
    · simp only [List.length_cons] at hlen
      omega
    · exact fun x hx => hsym x (List.mem_cons_of_mem c hx)

theorem setAtLeast_string_fold_inv (l : List (Nat × Char)) (m m' : IntersectionMatrix)
    (hm : storesDimensionValues m)
    (h : l.foldlM
      (fun m (ic : Nat × Char) => do
        let value ← Dimension.toDimensionValue ic.2
        m.setAtLeast ((ic.1 / 3 : Nat) : Int) ((ic.1 % 3 : Nat) : Int) value)
      m = .ok m') : storesDimensionValues m' := by
  induction l generalizing m with
  | nil =>
    simp only [List.foldlM_nil, pure, Except.pure] at h
    injection h with h
    subst h
    exact hm
  | cons ic l ih =>
    rw [List.foldlM_cons] at h
    cases hv : Dimension.toDimensionValue ic.2 with
    | error e => simp only [hv, bind, Except.bind, reduceCtorEq] at h
    | ok v =>
      cases hs : m.setAtLeast ((ic.1 / 3 : Nat) : Int) ((ic.1 % 3 : Nat) : Int) v with
      | error e => simp only [hv, hs, bind, Except.bind, reduceCtorEq] at h
      | ok m1 =>
        simp only [hv, hs, bind, Except.bind] at h
        exact ih _ (setAtLeast_inv m m1 _ _ v hm
          (Dimension.toDimensionValue_isDimensionValue _ _ hv) hs) h

theorem setAtLeast_string_fold_ok (l : List Char) (n : Nat) (m : IntersectionMatrix)
    (hlen : n + l.length ≤ 9) (hsym : ∀ c ∈ l, ∃ v, Dimension.toDimensionValue c = .ok v) :
    ∃ m', (l.enumFrom n).foldlM
      (fun m (ic : Nat × Char) => do
        let value ← Dimension.toDimensionValue ic.2
        m.setAtLeast ((ic.1 / 3 : Nat) : Int) ((ic.1 % 3 : Nat) : Int) value)
      m = .ok m' := by
  induction l generalizing n m with
  | nil => exact ⟨m, rfl⟩
  | cons c l ih =>
    obtain ⟨v, hv⟩ := hsym c (List.mem_cons_self c l)
    have hn : n < 9 := by
      simp only [List.length_cons] at hlen
      omega
    obtain ⟨m1, h1⟩ := setAtLeast_ok m ((n / 3 : Nat) : Int) ((n % 3 : Nat) : Int) v
      (by omega) (by omega)
    simp only [List.enumFrom, List.foldlM_cons, hv, h1, bind, Except.bind]
    apply ih
    · simp only [List.length_cons] at hlen
      omega
    · exact fun x hx => hsym x (List.mem_cons_of_mem c hx)

theorem transpose_apply (m : IntersectionMatrix) (i j : Fin 3) :
    m.transpose.matrix i j = m.matrix j i := by
  fin_cases i <;> fin_cases j <;> rfl

theorem setAll_apply (m : IntersectionMatrix) (v : Int) (i j : Fin 3) :
    (m.setAll v).matrix i j = v := by
  fin_cases i <;> fin_cases j <;> rfl

/-- One call with dimension arguments keeps the stored-value invariant. -/
theorem Call.run_inv (c : Call) (m m' : IntersectionMatrix) (hc : c.dimensionArguments)
    (hm : storesDimensionValues m) (h : c.run m = .ok m') : storesDimensionValues m' := by
  cases c with
  | set row col v => exact set_inv m m' row col v hm hc h
  | setAtLeast row col v => exact setAtLeast_inv m m' row col v hm hc h
  | setAtLeastIfValid row col v => exact setAtLeastIfValid_inv m m' row col v hm hc h
  | setAll v =>
    simp only [Call.run, Except.ok.injEq] at h
    subst h
    intro i j
    rw [setAll_apply]
    exact hc
  | set_string s => exact set_string_fold_inv _ m m' hm h
  | setAtLeast_string s => exact setAtLeast_string_fold_inv _ m m' hm h
  | add im =>
    simp only [Call.run, add_eq, Except.ok.injEq] at h
    subst h
    intro i j
    show isDimensionValue (max (m.matrix i j) (im.matrix i j))
    rcases max_choice (m.matrix i j) (im.matrix i j) with h | h <;> rw [h]
    · exact hm i j
    · exact hc i j
  | add_self =>
    simp only [Call.run, add_self_eq, Except.ok.injEq] at h
    subst h
    exact hm
  | transpose =>
    simp only [Call.run, Except.ok.injEq] at h
    subst h
    intro i j
    rw [transpose_apply]
    exact hm j i

/-- One call with dimension arguments that stays inside the array returns. -/
theorem Call.run_ok (c : Call) (m : IntersectionMatrix) (hc : c.dimensionArguments)
    (hb : c.inBounds) : ∃ m', c.run m = .ok m' := by
  cases c with
  | set row col v => exact set_ok m row col v hb.1 hb.2
  | setAtLeast row col v => exact setAtLeast_ok m row col v hb.1 hb.2
  | setAtLeastIfValid row col v => exact setAtLeastIfValid_ok m row col v hb
  | setAll v => exact ⟨_, rfl⟩
  | set_string s =>
    exact set_string_fold_ok s.toList 0 m (by simpa using hb)
      (fun x hx => Dimension.toDimensionValue_of_symbol x (hc x hx))
  | setAtLeast_string s =>
    exact setAtLeast_string_fold_ok s.toList 0 m (by simpa using hb)
      (fun x hx => Dimension.toDimensionValue_of_symbol x (hc x hx))
  | add im => exact ⟨_, add_eq m im⟩
  | add_self => exact ⟨_, add_self_eq m⟩
  | transpose => exact ⟨_, rfl⟩

theorem runCalls_inv (calls : List Call) (m m' : IntersectionMatrix)
    (hargs : ∀ c ∈ calls, c.dimensionArguments) (hm : storesDimensionValues m)
    (h : runCalls calls m = .ok m') : storesDimensionValues m' := by
  induction calls generalizing m with
  | nil =>
    simp only [runCalls, List.foldlM_nil, pure, Except.pure] at h
    injection h with h
    subst h
    exact hm
  | cons c cs ih =>
    simp only [runCalls, List.foldlM_cons] at h
    cases h1 : c.run m with
    | error e => simp only [h1, bind, Except.bind, reduceCtorEq] at h
    | ok m1 =>
      simp only [h1, bind, Except.bind] at h
      exact ih m1 (fun x hx => hargs x (List.mem_cons_of_mem c hx))
        (Call.run_inv c m m1 (hargs c (List.mem_cons_self c cs)) hm h1) h

theorem runCalls_ok (calls : List Call) (m : IntersectionMatrix)
    (hargs : ∀ c ∈ calls, c.dimensionArguments) (hb : ∀ c ∈ calls, c.inBounds) :
    ∃ m', runCalls calls m = .ok m' := by
  induction calls generalizing m with
  | nil => exact ⟨m, rfl⟩
  | cons c cs ih =>
    obtain ⟨m1, h1⟩ := Call.run_ok c m (hargs c (List.mem_cons_self c cs))
      (hb c (List.mem_cons_self c cs))
    obtain ⟨m2, h2⟩ := ih m1 (fun x hx => hargs x (List.mem_cons_of_mem c hx))
      (fun x hx => hb x (List.mem_cons_of_mem c hx))
    refine ⟨m2, ?_⟩
    simp only [runCalls, List.foldlM_cons, h1, bind, Except.bind]
    exact h2

end IntersectionMatrix

namespace IntersectionMatrix

/-- The static match is the member match on the matrix built from the first
string, whatever the construction and the match do. -/
theorem matches_string_string_bind (dimTrue : Int) (actual required : String) :
    matches_string_string dimTrue actual required
      = (mk_string actual >>= fun m => m.matches_string dimTrue required) := by
  unfold matches_string_string
  cases mk_string actual with
  | error e => rfl
  | ok m =>
    simp only [bind, Except.bind, pure, Except.pure]
    cases m.matches_string dimTrue required <;> rfl

/-- C26: for a string `actual` of nine dimension symbols and every string
`required`, the static `matches(actual, required)` has the outcome of
constructing the matrix from `actual` and calling `matches(required)` on it:
the same boolean when `required` has length 9 and the same
`IllegalArgumentException` otherwise. -/
theorem matches_string_string_eq (dimTrue : Int) (actual required : String)
    (hlen : actual.length = 9)
    (hsym : ∀ c ∈ actual.toList, ∃ v, Dimension.toDimensionValue c = .ok v) :
    matches_string_string dimTrue actual required
        = (mk_string actual >>= fun m => m.matches_string dimTrue required)
    ∧ ∃ m, mk_string actual = .ok m
      ∧ matches_string_string dimTrue actual required = m.matches_string dimTrue required
      ∧ (required.length = 9 → ∃ b : Bool,
          matches_string_string dimTrue actual required = .ok b
          ∧ m.matches_string dimTrue required = .ok b)
      ∧ (required.length ≠ 9 → ∃ msg,
          matches_string_string dimTrue actual required
            = .error (.IllegalArgumentException msg)
          ∧ m.matches_string dimTrue required = .error (.IllegalArgumentException msg)) := by
  have hb := matches_string_string_bind dimTrue actual required
  obtain ⟨m, hm⟩ : ∃ m, mk_string actual = .ok m :=
    set_string_fold_ok actual.toList 0 _ (by simp only [zero_add]; exact le_of_eq hlen) hsym
  have heq : matches_string_string dimTrue actual required
      = m.matches_string dimTrue required := by
    rw [hb, hm]
    rfl
  refine ⟨hb, m, hm, heq, ?_, ?_⟩
  · intro h9
    rw [heq]
    exact ⟨_, matches_string_of_length dimTrue m required h9,
      matches_string_of_length dimTrue m required h9⟩
  · intro h9
    rw [heq]
    have herr : m.matches_string dimTrue required = .error (.IllegalArgumentException
        ("IllegalArgumentException: Should be length 9, is "
          ++ "[" ++ required ++ "] instead" ++ "\n")) := by
      unfold matches_string
      rw [if_pos h9]
    exact ⟨_, herr, herr⟩

/-- Witness for C26: the symbols `FF2FF1212` against the pattern `FF*FF****`. -/
theorem matches_string_string_eq_witness :
    ("FF2FF1212").length = 9
    ∧ (∀ c ∈ ("FF2FF1212").toList, ∃ v, Dimension.toDimensionValue c = .ok v)
    ∧ matches_string_string (-2) "FF2FF1212" "FF*FF****"
        = (mk_string "FF2FF1212" >>= fun m => m.matches_string (-2) "FF*FF****")
    ∧ ∃ m, mk_string "FF2FF1212" = .ok m
      ∧ matches_string_string (-2) "FF2FF1212" "FF*FF****" = m.matches_string (-2) "FF*FF****"
      ∧ (("FF*FF****").length = 9 → ∃ b : Bool,
          matches_string_string (-2) "FF2FF1212" "FF*FF****" = .ok b
          ∧ m.matches_string (-2) "FF*FF****" = .ok b)
      ∧ (("FF*FF****").length ≠ 9 → ∃ msg,
          matches_string_string (-2) "FF2FF1212" "FF*FF****"
            = .error (.IllegalArgumentException msg)
          ∧ m.matches_string (-2) "FF*FF****" = .error (.IllegalArgumentException msg)) :=
  have hsym : ∀ c ∈ ("FF2FF1212").toList, ∃ v, Dimension.toDimensionValue c = .ok v := by
    intro c hc
    simp only [String.toList, List.mem_cons, List.mem_singleton, List.not_mem_nil,
      or_false] at hc
    rcases hc with h | h | h | h | h | h | h | h | h <;> subst h <;> exact ⟨_, rfl⟩
  ⟨by decide, hsym, matches_string_string_eq (-2) "FF2FF1212" "FF*FF****" (by decide) hsym⟩

/-- C27: starting from a default-constructed matrix, after any sequence of
calls of `set`, `setAtLeast`, `setAtLeastIfValid`, `setAll`, `set(symbols)`,
`setAtLeast(symbols)`, `add` and `transpose` whose arguments are dimension
data, every cell of the resulting matrix is one of `False`, `Point`, `Line`,
`Area`, so no value outside these four is stored; and when every call stays
inside the array the sequence does return such a matrix. -/
theorem storesDimensionValues_after_calls (calls : List Call)
    (hargs : ∀ c ∈ calls, c.dimensionArguments) :
    (∀ m, runCalls calls mk_default = .ok m →
      (∀ i j : Fin 3, m.matrix i j = Dimension.False ∨ m.matrix i j = Dimension.P
        ∨ m.matrix i j = Dimension.L ∨ m.matrix i j = Dimension.A)
      ∧ ∀ patternValue : Int, ¬ isDimensionValue patternValue →
          ∀ i j : Fin 3, m.matrix i j ≠ patternValue)
    ∧ ((∀ c ∈ calls, c.inBounds) →
      ∃ m, runCalls calls mk_default = .ok m ∧ storesDimensionValues m) := by
  have h0 : storesDimensionValues mk_default := by
    intro i j
    rw [mk_default_cells]
    exact Or.inl rfl
  constructor
  · intro m hm
    have hinv := runCalls_inv calls mk_default m hargs h0 hm
    refine ⟨hinv, ?_⟩
    intro d hd i j hij
    rw [← hij] at hd
    exact hd (hinv i j)
  · intro hb
    obtain ⟨m, hm⟩ := runCalls_ok calls mk_default hargs hb
    exact ⟨m, hm, runCalls_inv calls mk_default m hargs h0 hm⟩

/-- Witness for C27: a sequence that uses each kind of call. -/
theorem storesDimensionValues_after_calls_witness :
    (∀ c ∈ [Call.setAll 1, Call.set 0 0 2, Call.setAtLeast 2 2 0,
        Call.setAtLeastIfValid (-1) 0 2, Call.set_string "F01",
        Call.setAtLeast_string "2F", Call.add mk_default, Call.add_self, Call.transpose],
      c.dimensionArguments)
    ∧ (∀ m, runCalls [Call.setAll 1, Call.set 0 0 2, Call.setAtLeast 2 2 0,
        Call.setAtLeastIfValid (-1) 0 2, Call.set_string "F01",
        Call.setAtLeast_string "2F", Call.add mk_default, Call.add_self, Call.transpose]
        mk_default = .ok m →
      (∀ i j : Fin 3, m.matrix i j = Dimension.False ∨ m.matrix i j = Dimension.P
        ∨ m.matrix i j = Dimension.L ∨ m.matrix i j = Dimension.A)
      ∧ ∀ patternValue : Int, ¬ isDimensionValue patternValue →
          ∀ i j : Fin 3, m.matrix i j ≠ patternValue)
    ∧ ((∀ c ∈ [Call.setAll 1, Call.set 0 0 2, Call.setAtLeast 2 2 0,
        Call.setAtLeastIfValid (-1) 0 2, Call.set_string "F01",
        Call.setAtLeast_string "2F", Call.add mk_default, Call.add_self, Call.transpose],
        c.inBounds) →
      ∃ m, runCalls [Call.setAll 1, Call.set 0 0 2, Call.setAtLeast 2 2 0,
        Call.setAtLeastIfValid (-1) 0 2, Call.set_string "F01",
        Call.setAtLeast_string "2F", Call.add mk_default, Call.add_self, Call.transpose]
        mk_default = .ok m ∧ storesDimensionValues m) :=
  have hargs : ∀ c ∈ [Call.setAll 1, Call.set 0 0 2, Call.setAtLeast 2 2 0,
      Call.setAtLeastIfValid (-1) 0 2, Call.set_string "F01",
      Call.setAtLeast_string "2F", Call.add mk_default, Call.add_self, Call.transpose],
      c.dimensionArguments := by
    intro c hc
    simp only [List.mem_cons, List.mem_singleton, List.not_mem_nil, or_false] at hc
    rcases hc with h | h | h | h | h | h | h | h | h <;> subst h <;>
      simp only [Call.dimensionArguments] <;> decide
  ⟨hargs, storesDimensionValues_after_calls _ hargs⟩

end IntersectionMatrix

end geos.geom

/-! ## Vertex snapping in `SegmentString::addIntersection` -/

namespace geos.noding

end geos.noding

/-! ## Merging and intersection; equality and containment -/

namespace geos.geom

namespace IntersectionMatrix

/-- A dimension value is not below `False`. -/
theorem False_le_of_isDimensionValue (v : Int) (h : isDimensionValue v) :
    Dimension.False ≤ v := by
  rcases h with h | h | h | h <;> rw [h] <;> decide

/-- The maximum of two values that are not below `False` is `False` exactly
when both are. -/
theorem max_eq_False_iff (x y : Int) (hx : Dimension.False ≤ x) (hy : Dimension.False ≤ y) :
    max x y = Dimension.False ↔ x = Dimension.False ∧ y = Dimension.False := by
  constructor
  · intro h
    have h1 : x ≤ Dimension.False := h ▸ le_max_left x y
    have h2 : y ≤ Dimension.False := h ▸ le_max_right x y
    exact ⟨le_antisymm h1 hx, le_antisymm h2 hy⟩
  · rintro ⟨h1, h2⟩
    rw [h1, h2, max_self]

/-- C31: for matrices `a` and `b` whose cells are all dimension values,
`a.add(b)` returns a matrix that satisfies `isIntersects()` exactly when `a`
did before the call or `b` does; equivalently the merged matrix is disjoint
exactly when both are.  The same holds when `b` is `a` itself. -/
theorem isIntersects_add (a b : IntersectionMatrix)
    (ha : storesDimensionValues a) (hb : storesDimensionValues b) :
    (∃ r, a.add b = .ok r
      ∧ (r.isIntersects = true ↔ a.isIntersects = true ∨ b.isIntersects = true)
      ∧ (r.isDisjoint = true ↔ a.isDisjoint = true ∧ b.isDisjoint = true))
    ∧ (∃ r, a.add_self = .ok r
      ∧ (r.isIntersects = true ↔ a.isIntersects = true ∨ a.isIntersects = true)
      ∧ (r.isDisjoint = true ↔ a.isDisjoint = true ∧ a.isDisjoint = true)) := by
  have hcell : ∀ i j : Fin 3, max (a.matrix i j) (b.matrix i j) = Dimension.False ↔
      a.matrix i j = Dimension.False ∧ b.matrix i j = Dimension.False := fun i j =>
    max_eq_False_iff _ _ (False_le_of_isDimensionValue _ (ha i j))
      (False_le_of_isDimensionValue _ (hb i j))
  have hdis : (IntersectionMatrix.mk fun i j => max (a.matrix i j) (b.matrix i j)).isDisjoint
      = true ↔ a.isDisjoint = true ∧ b.isDisjoint = true := by
    simp only [isDisjoint, Bool.and_eq_true, beq_iff_eq, hcell]
    constructor
    · rintro ⟨⟨⟨⟨h1, g1⟩, h2, g2⟩, h3, g3⟩, h4, g4⟩
      exact ⟨⟨⟨⟨h1, h2⟩, h3⟩, h4⟩, ⟨⟨g1, g2⟩, g3⟩, g4⟩
    · rintro ⟨⟨⟨⟨h1, h2⟩, h3⟩, h4⟩, ⟨⟨g1, g2⟩, g3⟩, g4⟩
      exact ⟨⟨⟨⟨h1, g1⟩, h2, g2⟩, h3, g3⟩, h4, g4⟩
  have hint : ∀ r : IntersectionMatrix,
      (r.isDisjoint = true ↔ a.isDisjoint = true ∧ b.isDisjoint = true) →
      (r.isIntersects = true ↔ a.isIntersects = true ∨ b.isIntersects = true) := by
    intro r hr
    simp only [isIntersects, Bool.not_eq_true', ← Bool.not_eq_true]
    rw [hr]
    exact not_and_or
  refine ⟨⟨_, add_eq a b, hint _ hdis, hdis⟩, ⟨a, add_self_eq a, ?_, ?_⟩⟩
  · exact ⟨Or.inl, fun h => h.elim id id⟩
  · exact ⟨fun h => ⟨h, h⟩, fun h => h.1⟩

/-- Witness for C31: the all-`False` matrix merged with a matrix whose
Interior×Interior cell is `Area`. -/
theorem isIntersects_add_witness :
    storesDimensionValues mk_default ∧ storesDimensionValues (mk_default.store 0 0 2)
    ∧ (∃ r, mk_default.add (mk_default.store 0 0 2) = .ok r
      ∧ (r.isIntersects = true ↔
          mk_default.isIntersects = true ∨ (mk_default.store 0 0 2).isIntersects = true)
      ∧ (r.isDisjoint = true ↔
          mk_default.isDisjoint = true ∧ (mk_default.store 0 0 2).isDisjoint = true))
    ∧ (∃ r, mk_default.add_self = .ok r
      ∧ (r.isIntersects = true ↔
          mk_default.isIntersects = true ∨ mk_default.isIntersects = true)
      ∧ (r.isDisjoint = true ↔ mk_default.isDisjoint = true ∧ mk_default.isDisjoint = true)) :=
  ⟨by decide, by decide,
    isIntersects_add mk_default (mk_default.store 0 0 2) (by decide) (by decide)⟩

/-- C32: for every matrix and every dimension `d`, `isEquals(d, d)` is true
exactly when `isWithin()` and `isContains()` are both true. -/
theorem isEquals_iff_isWithin_and_isContains (dimTrue : Int) (m : IntersectionMatrix)
    (d : Int) :
    (isEquals dimTrue m d d = true ↔ isWithin dimTrue m = true ∧ isContains dimTrue m = true)
      ∧ isEquals dimTrue m d d = (isWithin dimTrue m && isContains dimTrue m) := by
  have hiff : isEquals dimTrue m d d = true ↔
      isWithin dimTrue m = true ∧ isContains dimTrue m = true := by
    rw [isEquals, if_neg (not_not.mpr rfl)]
    simp only [isWithin, isContains, Bool.and_eq_true, beq_iff_eq]
    constructor
    · rintro ⟨⟨⟨⟨h1, h2⟩, h3⟩, h4⟩, h5⟩
      exact ⟨⟨⟨h1, h3⟩, h5⟩, ⟨h1, h2⟩, h4⟩
    · rintro ⟨⟨⟨h1, h3⟩, h5⟩, ⟨_, h2⟩, h4⟩
      exact ⟨⟨⟨⟨h1, h2⟩, h3⟩, h4⟩, h5⟩
  refine ⟨hiff, ?_⟩
  rw [Bool.eq_iff_iff, hiff, Bool.and_eq_true]

end IntersectionMatrix

end geos.geom
